import Mathlib

/-!
Verification of the CANopenNode Object Dictionary interface
(`301/CO_ODinterface.h`).

The development shallowly embeds the data model and the operations of the
Object Dictionary access layer.  Code that is present in the header file
(`ODR_t` result codes, `OD_checkLimits`, `OD_rwRestart`, the data-model
structures) is translated directly from the source.  Operations that the
header only declares (their bodies live in a translation unit that is not
part of this tree: `OD_find`, `OD_getSub`, `OD_extensionIO_init`, the
default read/write transfer functions, the typed getters/setters and
`OD_getSDOabortCode`) are modelled from the specification; each such
definition carries a doc comment starting with `Modelled from the spec:`.

Modelling conventions:
* machine integers are `Nat` / `Int` (C result codes are plain `Int`s,
  exactly as the C `enum`);
* C pointers are symbolic heap identifiers (`Nat`); `Option` models
  nullability; a data location is a pair (heap id, byte offset), which
  mirrors C pointer arithmetic on element addresses;
* memory is a heap of byte arrays (`List (List Nat)`), each byte a `Nat`;
* C function pointers are symbolic values (`OD_readFn` / `OD_writeFn`):
  the distinguished default function, or an application function
  identified by a number and interpreted through an environment.
-/

/-! ## Result codes (`ODR_t`)

Translated from the `ODR_t` enum of `CO_ODinterface.h`.  The C enum is an
`int`; each enumerator is embedded as an `Int` constant with exactly the
value given in the source.  Note that the source assigns the value 23 to
both `ODR_DATA_DEV_STATE` and `ODR_OD_MISSING`, and no enumerator has the
value 24. -/

/-- Read/write is only partial, make more calls -/
def ODR_PARTIAL : Int := -1
/-- Read/write successfully finished -/
def ODR_OK : Int := 0
/-- Out of memory -/
def ODR_OUT_OF_MEM : Int := 1
/-- Unsupported access to an object -/
def ODR_UNSUPP_ACCESS : Int := 2
/-- Attempt to read a write only object -/
def ODR_WRITEONLY : Int := 3
/-- Attempt to write a read only object -/
def ODR_READONLY : Int := 4
/-- Object does not exist in the object dictionary -/
def ODR_IDX_NOT_EXIST : Int := 5
/-- Object cannot be mapped to the PDO -/
def ODR_NO_MAP : Int := 6
/-- PDO length exceeded -/
def ODR_MAP_LEN : Int := 7
/-- General parameter incompatibility reasons -/
def ODR_PAR_INCOMPAT : Int := 8
/-- General internal incompatibility in device -/
def ODR_DEV_INCOMPAT : Int := 9
/-- Access failed due to hardware error -/
def ODR_HW : Int := 10
/-- Data type does not match -/
def ODR_TYPE_MISMATCH : Int := 11
/-- Data type does not match, length too high -/
def ODR_DATA_LONG : Int := 12
/-- Data type does not match, length too short -/
def ODR_DATA_SHORT : Int := 13
/-- Sub index does not exist -/
def ODR_SUB_NOT_EXIST : Int := 14
/-- Invalid value for parameter (download only) -/
def ODR_INVALID_VALUE : Int := 15
/-- Value range of parameter written too high -/
def ODR_VALUE_HIGH : Int := 16
/-- Value range of parameter written too low -/
def ODR_VALUE_LOW : Int := 17
/-- Maximum value is less than minimum value -/
def ODR_MAX_LESS_MIN : Int := 18
/-- Resource not available: SDO connection -/
def ODR_NO_RESOURCE : Int := 19
/-- General error -/
def ODR_GENERAL : Int := 20
/-- Data cannot be transferred or stored to app -/
def ODR_DATA_TRANSF : Int := 21
/-- Data cannot be transferred (local control) -/
def ODR_DATA_LOC_CTRL : Int := 22
/-- Data cannot be transferred (present device state).  The source assigns
value 23 to this enumerator. -/
def ODR_DATA_DEV_STATE : Int := 23
/-- Object dictionary not present.  The source also assigns value 23 to
this enumerator (same value as `ODR_DATA_DEV_STATE`). -/
def ODR_OD_MISSING : Int := 23
/-- No data available -/
def ODR_NO_DATA : Int := 25
/-- Last element, number of responses -/
def ODR_COUNT : Int := 26

/-- All values carried by the 27 enumerators of `ODR_t`, in source order
(the value 23 appears twice because two enumerators share it). -/
def ODR_enumValues : List Int :=
  [ ODR_PARTIAL, ODR_OK, ODR_OUT_OF_MEM, ODR_UNSUPP_ACCESS, ODR_WRITEONLY,
   ODR_READONLY, ODR_IDX_NOT_EXIST, ODR_NO_MAP, ODR_MAP_LEN,
   ODR_PAR_INCOMPAT, ODR_DEV_INCOMPAT, ODR_HW, ODR_TYPE_MISMATCH,
   ODR_DATA_LONG, ODR_DATA_SHORT, ODR_SUB_NOT_EXIST, ODR_INVALID_VALUE,
   ODR_VALUE_HIGH, ODR_VALUE_LOW, ODR_MAX_LESS_MIN, ODR_NO_RESOURCE,
   ODR_GENERAL, ODR_DATA_TRANSF, ODR_DATA_LOC_CTRL, ODR_DATA_DEV_STATE,
   ODR_OD_MISSING, ODR_NO_DATA, ODR_COUNT]

/-- The distinct numeric values denoting access results (every enumerator
except `ODR_COUNT`, which is documented as "number of responses", i.e. a
count, not a result).  The shared value 23 is listed once, since it is a
single result code (with two names). -/
def ODR_resultValues : List Int :=
  [ ODR_PARTIAL, ODR_OK, ODR_OUT_OF_MEM, ODR_UNSUPP_ACCESS, ODR_WRITEONLY,
   ODR_READONLY, ODR_IDX_NOT_EXIST, ODR_NO_MAP, ODR_MAP_LEN,
   ODR_PAR_INCOMPAT, ODR_DEV_INCOMPAT, ODR_HW, ODR_TYPE_MISMATCH,
   ODR_DATA_LONG, ODR_DATA_SHORT, ODR_SUB_NOT_EXIST, ODR_INVALID_VALUE,
   ODR_VALUE_HIGH, ODR_VALUE_LOW, ODR_MAX_LESS_MIN, ODR_NO_RESOURCE,
   ODR_GENERAL, ODR_DATA_TRANSF, ODR_DATA_LOC_CTRL, ODR_DATA_DEV_STATE,
   ODR_NO_DATA]

/-! ## Abort-code mapper -/

/-- Modelled from the spec: the body of `OD_getSDOabortCode` is not part of
this tree (the header only declares it).  §4.8: "Pure total function
mapping every internal result code to a protocol-level numeric abort code.
Must handle all defined result codes plus an explicit default for any
unrecognized/out-of-range input".  The table assigns one abort code per
defined result-code value; the numeric abort values follow the standard
CiA 301 SDO abort codes referenced by the enumerator doc comments (the
spec itself fixes no numbers; `ODR_PARTIAL`, which has no wire abort code,
is given a placeholder value distinct from all others, as §8 requires
distinctness). -/
def OD_abortCodeTable : List (Int × Nat) :=
  [( ODR_PARTIAL, 0x00000001),
   (ODR_OK, 0x00000000),
   (ODR_OUT_OF_MEM, 0x05040005),
   (ODR_UNSUPP_ACCESS, 0x06010000),
   (ODR_WRITEONLY, 0x06010001),
   (ODR_READONLY, 0x06010002),
   (ODR_IDX_NOT_EXIST, 0x06020000),
   (ODR_NO_MAP, 0x06040041),
   (ODR_MAP_LEN, 0x06040042),
   (ODR_PAR_INCOMPAT, 0x06040043),
   (ODR_DEV_INCOMPAT, 0x06040047),
   (ODR_HW, 0x06060000),
   (ODR_TYPE_MISMATCH, 0x06070010),
   (ODR_DATA_LONG, 0x06070012),
   (ODR_DATA_SHORT, 0x06070013),
   (ODR_SUB_NOT_EXIST, 0x06090011),
   (ODR_INVALID_VALUE, 0x06090030),
   (ODR_VALUE_HIGH, 0x06090031),
   (ODR_VALUE_LOW, 0x06090032),
   (ODR_MAX_LESS_MIN, 0x06090036),
   (ODR_NO_RESOURCE, 0x060A0023),
   (ODR_GENERAL, 0x08000000),
   (ODR_DATA_TRANSF, 0x08000020),
   (ODR_DATA_LOC_CTRL, 0x08000021),
   (ODR_DATA_DEV_STATE, 0x08000022),
   (ODR_NO_DATA, 0x08000024)]

/-- Modelled from the spec: default abort code returned for any input that
is not a defined result code ("general error", as in the fallback used by
the reference implementation family). -/
def OD_abortCodeDefault : Nat := 0x08000000

/-- First-match association lookup in the abort-code table. -/
def OD_abortLookup : List (Int × Nat) → Int → Option Nat
  | [], _ => none
  | (k, v) :: tl, rc => if rc = k then some v else OD_abortLookup tl rc

/-- Modelled from the spec: `OD_getSDOabortCode` — table lookup with an
explicit default for unknown inputs (§4.8). -/
def OD_getSDOabortCode (returnCode : Int) : Nat :=
  match OD_abortLookup OD_abortCodeTable returnCode with
  | some a => a
  | none => OD_abortCodeDefault

/-! ## Byte memory

Symbolic heap: a list of byte arrays, one per symbolic pointer. -/

/-- Heap of byte arrays, indexed by symbolic pointer. -/
abbrev Mem := List (List Nat)

/-- Read `n` bytes at byte offset `off` of the array at pointer `p`. -/
def memRead (mem : Mem) (p off n : Nat) : List Nat :=
  ((mem.getD p []).drop off).take n

/-- Overwrite the bytes at offset `off` of the array at pointer `p`. -/
def memWrite (mem : Mem) (p off : Nat) (bs : List Nat) : Mem :=
  let arr := mem.getD p []
  mem.set p (arr.take off ++ bs ++ arr.drop (off + bs.length))

/-! ## Data model

Translated from the structures of `CO_ODinterface.h`.  The C field
`attribute` is a Lean keyword, so it is embedded as `attrib`
(`attribute0` → `attrib0`). -/

/-- Symbolic read-function pointer: the default read installed by the
Object Dictionary (`odOriginal`), or an application-supplied function
identified by a number. -/
inductive OD_readFn
  | odOriginal
  | app (k : Nat)
deriving Repr, DecidableEq

/-- Symbolic write-function pointer, see `OD_readFn`. -/
inductive OD_writeFn
  | odOriginal
  | app (k : Nat)
deriving Repr, DecidableEq

/-- `OD_stream_t`: IO stream structure used for read/write access.  A data
object is a symbolic pointer plus a byte offset into it (mirroring C
pointer arithmetic); `none` models a NULL data pointer. -/
structure OD_stream_t where
  dataObject : Option (Nat × Nat)
  dataLength : Nat
  dataOffset : Nat
deriving Repr, DecidableEq

/-- `OD_subEntry_t`: resolved properties of a variable at (index,
sub-index), as populated by `OD_getSub`. -/
structure OD_subEntry_t where
  index : Nat
  subIndex : Nat
  maxSubIndex : Nat
  storageGroup : Nat
  attrib : Nat
  lowLimit : Int
  highLimit : Int
  flagsPDO : Option Nat
  read : OD_readFn
  write : OD_writeFn
deriving Repr, DecidableEq

/-- `OD_obj_var_t`: object for a single OD variable. -/
structure OD_obj_var_t where
  data : Option Nat
  attrib : Nat
  dataLength : Nat
deriving Repr, DecidableEq

/-- `OD_limits_t`: limits of the parameter value. -/
structure OD_limits_t where
  low : Int
  high : Int
deriving Repr, DecidableEq

/-- `OD_obj_varLimits_t`: single OD variable with limits. -/
structure OD_obj_varLimits_t where
  data : Option Nat
  attrib : Nat
  dataLength : Nat
  limit : OD_limits_t
deriving Repr, DecidableEq

/-- `OD_obj_array_t`: OD array of variables. -/
structure OD_obj_array_t where
  data0 : Option Nat
  data : Option Nat
  attrib0 : Nat
  attrib : Nat
  dataElementLength : Nat
  dataElementSizeof : Nat
deriving Repr, DecidableEq

/-- `OD_obj_arrayLimAttr_t`: OD array with per-element limits and
attributes. -/
structure OD_obj_arrayLimAttr_t where
  data0 : Option Nat
  data : Option Nat
  limits : List OD_limits_t
  attributes : List Nat
  attrib0 : Nat
  dataElementLength : Nat
  dataElementSizeof : Nat
deriving Repr, DecidableEq

/-- `OD_extensionIO_t`: application-specified parameters for an extended
OD object.  `object = none` models the NULL reference meaning "extension
not yet installed". -/
structure OD_extensionIO_t where
  object : Option Nat
  read : OD_readFn
  write : OD_writeFn
deriving Repr, DecidableEq

/-- The basic (non-extended) OD object shapes, selected in C by the low
four bits of `odObjectType` (`ODT_VAR`, `ODT_ARR`, `ODT_REC`, `ODT_VARL`,
`ODT_ARRL`, `ODT_RECL`).  A record is an array of `OD_obj_var_t`
(respectively `OD_obj_varLimits_t`), one per sub-index. -/
inductive OD_basicObject
  | var (v : OD_obj_var_t)
  | varLimits (v : OD_obj_varLimits_t)
  | array (a : OD_obj_array_t)
  | arrayLimAttr (a : OD_obj_arrayLimAttr_t)
  | record (elems : List OD_obj_var_t)
  | recordLimits (elems : List OD_obj_varLimits_t)
deriving Repr, DecidableEq

/-- `OD_obj_extended_t`: extended OD object, wrapping the original object
with a PDO-flags pointer and a pointer to the mutable IO-extension cell
(`extIOref = none` models a NULL `extIO` pointer). -/
structure OD_obj_extended_t where
  flagsPDO : Option Nat
  extIOref : Option OD_extensionIO_t
  odObjectOriginal : OD_basicObject
deriving Repr, DecidableEq

/-- The `odObject` pointer together with the `odObjectType` tag: either a
basic object (extension bit clear) or an extended wrapper (extension bit
set, `ODT_EVAR` .. `ODT_ERECL`). -/
inductive OD_objectUnion
  | basic (b : OD_basicObject)
  | extended (e : OD_obj_extended_t)
deriving Repr, DecidableEq

/-- `OD_entry_t`: Object Dictionary entry for one OD object. -/
structure OD_entry_t where
  index : Nat
  maxSubIndex : Nat
  storageGroup : Nat
  odObject : OD_objectUnion
deriving Repr, DecidableEq

/-- `OD_t`: the Object Dictionary — the ordered entry list.  Following the
spec (§9), the C sentinel terminator is dropped and `size` is the list
length. -/
structure OD_t where
  list : List OD_entry_t
deriving Repr, DecidableEq

/-- Base shape of an entry's object (for an extended object, the shape of
the wrapped original). -/
def OD_baseObject : OD_objectUnion → OD_basicObject
  | .basic b => b
  | .extended e => e.odObjectOriginal

/-- Does the `odObjectType` tag carry the extension bit
(`ODT_EXTENSION_MASK`)? -/
def OD_isExtended : OD_objectUnion → Bool
  | .basic _ => false
  | .extended _ => true

/-! ## Sub-entry resolver -/

/-- Metadata of one resolved sub-object, gathered from the matching object
element: attribute bits, limits, declared byte length and the data
location. -/
structure OD_resolvedMeta where
  attrib : Nat
  lowLimit : Int
  highLimit : Int
  dataLength : Nat
  dataLoc : Option (Nat × Nat)
deriving Repr, DecidableEq

/-- Resolved limits when an object shape declares none: the `OD_subEntry_t`
fields document "not valid if lowLimit greater than highLimit", so shapes
without limits resolve to that disabled sentinel. -/
def OD_noLimitLow : Int := 1

/-- See `OD_noLimitLow`. -/
def OD_noLimitHigh : Int := 0

/-- Modelled from the spec: step 2 and 3 of the resolution algorithm
(§4.2) on a basic object shape — validate the sub-index range for the
shape (Variable accepts only 0, Array/Record accept `0..maxSubIndex`,
anything else fails with "sub-index does not exist") and fetch the
matching element's metadata.  Array element addresses follow C pointer
arithmetic: element `i` lives at byte offset `(i-1) * dataElementSizeof`
of the element block.  A record whose element list is shorter than its
declared `maxSubIndex` range has no matching element; this malformed case
resolves to the device-incompatibility error. -/
def OD_resolveBasic (b : OD_basicObject) (maxSubIndex subIndex : Nat) :
    Except Int OD_resolvedMeta :=
  match b with
  | .var v =>
    if subIndex ≠ 0 then .error ODR_SUB_NOT_EXIST
    else .ok ⟨v.attrib, OD_noLimitLow, OD_noLimitHigh, v.dataLength,
              v.data.map (fun p => (p, 0))⟩
  | .varLimits v =>
    if subIndex ≠ 0 then .error ODR_SUB_NOT_EXIST
    else .ok ⟨v.attrib, v.limit.low, v.limit.high, v.dataLength,
              v.data.map (fun p => (p, 0))⟩
  | .array a =>
    if maxSubIndex < subIndex then .error ODR_SUB_NOT_EXIST
    else if subIndex = 0 then
      .ok ⟨a.attrib0, OD_noLimitLow, OD_noLimitHigh, 1,
           a.data0.map (fun p => (p, 0))⟩
    else
      .ok ⟨a.attrib, OD_noLimitLow, OD_noLimitHigh, a.dataElementLength,
           a.data.map (fun p => (p, (subIndex - 1) * a.dataElementSizeof))⟩
  | .arrayLimAttr a =>
    if maxSubIndex < subIndex then .error ODR_SUB_NOT_EXIST
    else if subIndex = 0 then
      .ok ⟨a.attrib0, OD_noLimitLow, OD_noLimitHigh, 1,
           a.data0.map (fun p => (p, 0))⟩
    else
      let lim := a.limits.getD (subIndex - 1) ⟨OD_noLimitLow, OD_noLimitHigh⟩
      .ok ⟨a.attributes.getD (subIndex - 1) 0, lim.low, lim.high,
           a.dataElementLength,
           a.data.map (fun p => (p, (subIndex - 1) * a.dataElementSizeof))⟩
  | .record elems =>
    if maxSubIndex < subIndex then .error ODR_SUB_NOT_EXIST
    else
      match elems[subIndex]? with
      | some v => .ok ⟨v.attrib, OD_noLimitLow, OD_noLimitHigh, v.dataLength,
                       v.data.map (fun p => (p, 0))⟩
      | none => .error ODR_DEV_INCOMPAT
  | .recordLimits elems =>
    if maxSubIndex < subIndex then .error ODR_SUB_NOT_EXIST
    else
      match elems[subIndex]? with
      | some v => .ok ⟨v.attrib, v.limit.low, v.limit.high, v.dataLength,
                       v.data.map (fun p => (p, 0))⟩
      | none => .error ODR_DEV_INCOMPAT

/-- Modelled from the spec: `OD_getSub` (§4.2) — find the sub-object with
the given sub-index on the entry returned by `OD_find`, and populate the
sub-entry and stream structures.  A NULL entry fails with "object does not
exist".  On a non-extended object the default read/write functions are
bound.  On an extended object whose IO extension is not installed
(NULL extension cell, or a cell whose application object reference is
unset) the resolution uses the original object exactly as in the
non-extended case; once the extension is installed, the stream's data
object is the application-supplied object and the custom read/write
functions are bound, while attribute, limits and declared length still
come from the original object's metadata.  The PDO-flags reference is
populated from the extension wrapper. -/
def OD_getSub (entry? : Option OD_entry_t) (subIndex : Nat) :
    Except Int (OD_subEntry_t × OD_stream_t) :=
  match entry? with
  | none => .error ODR_IDX_NOT_EXIST
  | some entry =>
    match entry.odObject with
    | .basic b =>
      match OD_resolveBasic b entry.maxSubIndex subIndex with
      | .error c => .error c
      | .ok m =>
        .ok ({ index := entry.index, subIndex := subIndex,
               maxSubIndex := entry.maxSubIndex,
               storageGroup := entry.storageGroup,
               attrib := m.attrib, lowLimit := m.lowLimit,
               highLimit := m.highLimit, flagsPDO := none,
               read := .odOriginal, write := .odOriginal },
             { dataObject := m.dataLoc, dataLength := m.dataLength,
               dataOffset := 0 })
    | .extended e =>
      match OD_resolveBasic e.odObjectOriginal entry.maxSubIndex subIndex with
      | .error c => .error c
      | .ok m =>
        let installed : Option Nat :=
          match e.extIOref with
          | none => none
          | some x => x.object
        match e.extIOref, installed with
        | some x, some appObj =>
          .ok ({ index := entry.index, subIndex := subIndex,
                 maxSubIndex := entry.maxSubIndex,
                 storageGroup := entry.storageGroup,
                 attrib := m.attrib, lowLimit := m.lowLimit,
                 highLimit := m.highLimit, flagsPDO := e.flagsPDO,
                 read := x.read, write := x.write },
               { dataObject := some (appObj, 0), dataLength := m.dataLength,
                 dataOffset := 0 })
        | _, _ =>
          .ok ({ index := entry.index, subIndex := subIndex,
                 maxSubIndex := entry.maxSubIndex,
                 storageGroup := entry.storageGroup,
                 attrib := m.attrib, lowLimit := m.lowLimit,
                 highLimit := m.highLimit, flagsPDO := e.flagsPDO,
                 read := .odOriginal, write := .odOriginal },
               { dataObject := m.dataLoc, dataLength := m.dataLength,
                 dataOffset := 0 })

/-- `OD_checkLimits`, translated from the `static inline` body in the
header: verify that a value written to the Object Dictionary is within the
limit values of the resolved sub-entry. -/
def OD_checkLimits (subEntry : OD_subEntry_t) (val : Int) : Int :=
  let lowLimit := subEntry.lowLimit
  let highLimit := subEntry.highLimit
  if lowLimit ≤ highLimit then
    if val < lowLimit then ODR_VALUE_LOW
    else if val > highLimit then ODR_VALUE_HIGH
    else ODR_OK
  else ODR_OK

/-- `OD_rwRestart`, translated from the `static inline` body in the
header: restart a read or write operation by zeroing the stream's data
offset. -/
def OD_rwRestart (stream : OD_stream_t) : OD_stream_t :=
  { stream with dataOffset := 0 }

/-! ## Extension mechanism -/

/-- Modelled from the spec: `OD_extensionIO_init` (§4.4) — install an
application-owned object reference and read/write function pair onto one
entry's object.  Fails with no effect if the entry is absent, the object
reference is unset, or the target object's shape is not extension-capable
(no extension bit in `odObjectType`, or a NULL extension cell to write
to).  The C function mutates the extension cell in place; the model
returns the updated entry next to the C `bool_t` result. -/
def OD_extensionIO_init (entry? : Option OD_entry_t) (object : Option Nat)
    (read : OD_readFn) (write : OD_writeFn) : Bool × Option OD_entry_t :=
  match entry?, object with
  | none, _ => (false, entry?)
  | some _, none => (false, entry?)
  | some entry, some obj =>
    match entry.odObject with
    | .basic _ => (false, entry?)
    | .extended e =>
      match e.extIOref with
      | none => (false, entry?)
      | some _ =>
        (true, some { entry with odObject := .extended { e with
            extIOref := some { object := some obj, read := read,
                               write := write } } })

/-! ## Transfer protocol -/

/-- Modelled from the spec: the default read function bound by `OD_getSub`
(§4.3) — copy `min(capacity, declaredLength - offset)` bytes from storage
at the current offset into the buffer, advance the offset by that count,
and return success if the full remaining length was copied in this call,
else the partial code.  An object with no backing storage (NULL data
pointer, e.g. one marked "no initial value") fails deterministically with
the device-incompatibility error.  Returns (byte count, bytes copied,
result code, updated stream). -/
def OD_readOriginal (mem : Mem) (stream : OD_stream_t) (count : Nat) :
    Nat × List Nat × Int × OD_stream_t :=
  match stream.dataObject with
  | none => (0, [], ODR_DEV_INCOMPAT, stream)
  | some (p, base) =>
    let remain := stream.dataLength - stream.dataOffset
    let n := min count remain
    let bytes := memRead mem p (base + stream.dataOffset) n
    let code := if remain ≤ count then ODR_OK else ODR_PARTIAL
    (n, bytes, code, { stream with dataOffset := stream.dataOffset + n })

/-- Modelled from the spec: the default write function bound by
`OD_getSub` (§4.3), symmetric to the default read — copy the buffer into
storage at the current offset.  A buffer longer than the remaining
declared length is a length mismatch (data too long, nothing copied); a
buffer that fills only part of the remaining length returns the partial
code.  Returns (byte count, result code, updated stream, updated
memory). -/
def OD_writeOriginal (mem : Mem) (stream : OD_stream_t) (buf : List Nat) :
    Nat × Int × OD_stream_t × Mem :=
  match stream.dataObject with
  | none => (0, ODR_DEV_INCOMPAT, stream, mem)
  | some (p, base) =>
    let remain := stream.dataLength - stream.dataOffset
    if remain < buf.length then (0, ODR_DATA_LONG, stream, mem)
    else
      let mem' := memWrite mem p (base + stream.dataOffset) buf
      let code := if buf.length = remain then ODR_OK else ODR_PARTIAL
      (buf.length, code, { stream with dataOffset :=
                             stream.dataOffset + buf.length }, mem')

/-- A chunked-transfer run: call the default read repeatedly with the
given buffer capacities, keeping the same cursor, and stop as soon as a
call returns something other than the partial code.  Returns the list of
(byte count, result code) pairs of the calls made, and the final
cursor. -/
def OD_readSeq (mem : Mem) (stream : OD_stream_t) :
    List Nat → List (Nat × Int) × OD_stream_t
  | [] => ([], stream)
  | c :: cs =>
    let r := OD_readOriginal mem stream c
    if r.2.2.1 = ODR_PARTIAL then
      let rest := OD_readSeq mem r.2.2.2 cs
      ((r.1, r.2.2.1) :: rest.1, rest.2)
    else ([(r.1, r.2.2.1)], r.2.2.2)

/-! ## Application read/write environment

C function pointers supplied by the application are symbolic values; this
environment interprets them when they are invoked. -/

/-- Interpretation of application-supplied read/write functions. -/
structure AppEnv where
  reads : Nat → Mem → OD_stream_t → Nat → Nat × List Nat × Int × OD_stream_t
  writes : Nat → Mem → OD_stream_t → List Nat →
             Nat × Int × OD_stream_t × Mem

/-- Dispatch a symbolic read-function pointer. -/
def OD_applyRead (env : AppEnv) :
    OD_readFn → Mem → OD_stream_t → Nat → Nat × List Nat × Int × OD_stream_t
  | .odOriginal => OD_readOriginal
  | .app k => env.reads k

/-- Dispatch a symbolic write-function pointer. -/
def OD_applyWrite (env : AppEnv) :
    OD_writeFn → Mem → OD_stream_t → List Nat →
      Nat × Int × OD_stream_t × Mem
  | .odOriginal => OD_writeOriginal
  | .app k => env.writes k

/-! ## Typed getters and setters -/

/-- Modelled from the spec: common body of the typed getters (§4.6) —
resolve the sub-index, invoke the bound read exactly once with the exact
byte size of the target type, and require the transferred byte count to
equal that size: a value that does not fit the buffer (partial code) is
"data too long", a shorter transferred count is "data too short".  Returns
(result code, bytes read). -/
def OD_getBytes (env : AppEnv) (mem : Mem) (entry? : Option OD_entry_t)
    (subIndex : Nat) (w : Nat) : Int × List Nat :=
  match OD_getSub entry? subIndex with
  | .error c => (c, [])
  | .ok (se, st) =>
    let r := OD_applyRead env se.read mem st w
    if r.2.2.1 = ODR_PARTIAL then (ODR_DATA_LONG, [])
    else if r.2.2.1 ≠ ODR_OK then (r.2.2.1, [])
    else if r.1 ≠ w then (ODR_DATA_SHORT, [])
    else (ODR_OK, r.2.1)

/-- Modelled from the spec: common body of the typed setters (§4.6) —
resolve the sub-index and invoke the bound write exactly once with the
value's bytes; a variable longer than the supplied value (partial code)
is "data too short".  Returns (result code, updated memory). -/
def OD_setBytes (env : AppEnv) (mem : Mem) (entry? : Option OD_entry_t)
    (subIndex : Nat) (buf : List Nat) : Int × Mem :=
  match OD_getSub entry? subIndex with
  | .error c => (c, mem)
  | .ok (se, st) =>
    let r := OD_applyWrite env se.write mem st buf
    if r.2.1 = ODR_PARTIAL then (ODR_DATA_SHORT, r.2.2.2)
    else (r.2.1, r.2.2.2)

/-- Little-endian byte image of a natural number, `w` bytes. -/
def bytesOfNat : Nat → Nat → List Nat
  | 0, _ => []
  | w + 1, v => (v % 256) :: bytesOfNat w (v / 256)

/-- Value of a little-endian byte image. -/
def natOfBytes : List Nat → Nat
  | [] => 0
  | b :: bs => b + 256 * natOfBytes bs

/-- Two's-complement byte image of an integer, `w` bytes. -/
def bytesOfInt (w : Nat) (v : Int) : List Nat :=
  bytesOfNat w (v % (2 ^ (8 * w))).toNat

/-- Integer value of a two's-complement byte image of width `w`. -/
def intOfBytes (w : Nat) (bs : List Nat) : Int :=
  let n := natOfBytes bs
  if 2 * n < 2 ^ (8 * w) then (n : Int) else (n : Int) - 2 ^ (8 * w)

/-- Modelled from the spec: `OD_get_u8` — get a `uint8_t` variable from
the Object Dictionary (lookup result, sub-index, bound read once, exact
size 1).  Returns (result code, value).  The C out-parameter is returned;
on failure the C function leaves it unassigned and the model returns 0. -/
def OD_get_u8 (env : AppEnv) (mem : Mem) (entry? : Option OD_entry_t)
    (subIndex : Nat) : Int × Nat :=
  let r := OD_getBytes env mem entry? subIndex 1
  (r.1, natOfBytes r.2)

/-- Modelled from the spec: `OD_get_u16`, see `OD_get_u8`. -/
def OD_get_u16 (env : AppEnv) (mem : Mem) (entry? : Option OD_entry_t)
    (subIndex : Nat) : Int × Nat :=
  let r := OD_getBytes env mem entry? subIndex 2
  (r.1, natOfBytes r.2)

/-- Modelled from the spec: `OD_get_u32`, see `OD_get_u8`. -/
def OD_get_u32 (env : AppEnv) (mem : Mem) (entry? : Option OD_entry_t)
    (subIndex : Nat) : Int × Nat :=
  let r := OD_getBytes env mem entry? subIndex 4
  (r.1, natOfBytes r.2)

/-- Modelled from the spec: `OD_get_u64`, see `OD_get_u8`. -/
def OD_get_u64 (env : AppEnv) (mem : Mem) (entry? : Option OD_entry_t)
    (subIndex : Nat) : Int × Nat :=
  let r := OD_getBytes env mem entry? subIndex 8
  (r.1, natOfBytes r.2)

/-- Modelled from the spec: `OD_get_i8` — get an `int8_t` variable
(two's-complement bytes), see `OD_get_u8`. -/
def OD_get_i8 (env : AppEnv) (mem : Mem) (entry? : Option OD_entry_t)
    (subIndex : Nat) : Int × Int :=
  let r := OD_getBytes env mem entry? subIndex 1
  (r.1, intOfBytes 1 r.2)

/-- Modelled from the spec: `OD_get_i16`, see `OD_get_i8`. -/
def OD_get_i16 (env : AppEnv) (mem : Mem) (entry? : Option OD_entry_t)
    (subIndex : Nat) : Int × Int :=
  let r := OD_getBytes env mem entry? subIndex 2
  (r.1, intOfBytes 2 r.2)

/-- Modelled from the spec: `OD_get_i32`, see `OD_get_i8`. -/
def OD_get_i32 (env : AppEnv) (mem : Mem) (entry? : Option OD_entry_t)
    (subIndex : Nat) : Int × Int :=
  let r := OD_getBytes env mem entry? subIndex 4
  (r.1, intOfBytes 4 r.2)

/-- Modelled from the spec: `OD_get_i64`, see `OD_get_i8`. -/
def OD_get_i64 (env : AppEnv) (mem : Mem) (entry? : Option OD_entry_t)
    (subIndex : Nat) : Int × Int :=
  let r := OD_getBytes env mem entry? subIndex 8
  (r.1, intOfBytes 8 r.2)

/-- Modelled from the spec: `OD_get_r32` — get a `float32_t` variable.
The layer copies the 4 value bytes verbatim and never interprets them
(§4.6: no conversion), so a float value is embedded as its 32-bit pattern.
See `OD_get_u8`. -/
def OD_get_r32 (env : AppEnv) (mem : Mem) (entry? : Option OD_entry_t)
    (subIndex : Nat) : Int × Nat :=
  let r := OD_getBytes env mem entry? subIndex 4
  (r.1, natOfBytes r.2)

/-- Modelled from the spec: `OD_get_r64` — get a `float64_t` variable as
its 64-bit pattern, see `OD_get_r32`. -/
def OD_get_r64 (env : AppEnv) (mem : Mem) (entry? : Option OD_entry_t)
    (subIndex : Nat) : Int × Nat :=
  let r := OD_getBytes env mem entry? subIndex 8
  (r.1, natOfBytes r.2)

/-- Modelled from the spec: `OD_set_u8` — set a `uint8_t` variable in the
Object Dictionary (lookup result, sub-index, bound write once, exact size
1).  Returns (result code, updated memory). -/
def OD_set_u8 (env : AppEnv) (mem : Mem) (entry? : Option OD_entry_t)
    (subIndex : Nat) (val : Nat) : Int × Mem :=
  OD_setBytes env mem entry? subIndex (bytesOfNat 1 val)

/-- Modelled from the spec: `OD_set_u16`, see `OD_set_u8`. -/
def OD_set_u16 (env : AppEnv) (mem : Mem) (entry? : Option OD_entry_t)
    (subIndex : Nat) (val : Nat) : Int × Mem :=
  OD_setBytes env mem entry? subIndex (bytesOfNat 2 val)

/-- Modelled from the spec: `OD_set_u32`, see `OD_set_u8`. -/
def OD_set_u32 (env : AppEnv) (mem : Mem) (entry? : Option OD_entry_t)
    (subIndex : Nat) (val : Nat) : Int × Mem :=
  OD_setBytes env mem entry? subIndex (bytesOfNat 4 val)

/-- Modelled from the spec: `OD_set_u64`, see `OD_set_u8`. -/
def OD_set_u64 (env : AppEnv) (mem : Mem) (entry? : Option OD_entry_t)
    (subIndex : Nat) (val : Nat) : Int × Mem :=
  OD_setBytes env mem entry? subIndex (bytesOfNat 8 val)

/-- Modelled from the spec: `OD_set_i8` — set an `int8_t` variable
(two's-complement bytes), see `OD_set_u8`. -/
def OD_set_i8 (env : AppEnv) (mem : Mem) (entry? : Option OD_entry_t)
    (subIndex : Nat) (val : Int) : Int × Mem :=
  OD_setBytes env mem entry? subIndex (bytesOfInt 1 val)

/-- Modelled from the spec: `OD_set_i16`, see `OD_set_i8`. -/
def OD_set_i16 (env : AppEnv) (mem : Mem) (entry? : Option OD_entry_t)
    (subIndex : Nat) (val : Int) : Int × Mem :=
  OD_setBytes env mem entry? subIndex (bytesOfInt 2 val)

/-- Modelled from the spec: `OD_set_i32`, see `OD_set_i8`. -/
def OD_set_i32 (env : AppEnv) (mem : Mem) (entry? : Option OD_entry_t)
    (subIndex : Nat) (val : Int) : Int × Mem :=
  OD_setBytes env mem entry? subIndex (bytesOfInt 4 val)

/-- Modelled from the spec: `OD_set_i64`, see `OD_set_i8`. -/
def OD_set_i64 (env : AppEnv) (mem : Mem) (entry? : Option OD_entry_t)
    (subIndex : Nat) (val : Int) : Int × Mem :=
  OD_setBytes env mem entry? subIndex (bytesOfInt 8 val)

/-- Modelled from the spec: `OD_set_r32` — set a `float32_t` variable
given as its 32-bit pattern, see `OD_get_r32`. -/
def OD_set_r32 (env : AppEnv) (mem : Mem) (entry? : Option OD_entry_t)
    (subIndex : Nat) (val : Nat) : Int × Mem :=
  OD_setBytes env mem entry? subIndex (bytesOfNat 4 val)

/-- Modelled from the spec: `OD_set_r64` — set a `float64_t` variable
given as its 64-bit pattern, see `OD_get_r32`. -/
def OD_set_r64 (env : AppEnv) (mem : Mem) (entry? : Option OD_entry_t)
    (subIndex : Nat) (val : Nat) : Int × Mem :=
  OD_setBytes env mem entry? subIndex (bytesOfNat 8 val)

/-! ## Lookup -/

/-- Modelled from the spec: the ordered `O(log n)` search of `OD_find`
(§4.1) on the half-open position range `[lo, hi)` of the entry list. -/
def OD_findRange (l : List OD_entry_t) (index : Nat) (lo hi : Nat) :
    Option OD_entry_t :=
  if hle : hi ≤ lo then none
  else
    match l[(lo + hi) / 2]? with
    | none => none
    | some e =>
      if index = e.index then some e
      else if index < e.index then OD_findRange l index lo ((lo + hi) / 2)
      else OD_findRange l index ((lo + hi) / 2 + 1) hi
termination_by hi - lo
decreasing_by
  · omega
  · omega

/-- Modelled from the spec: `OD_find` — find the OD entry with the given
index in the Object Dictionary, or the not-found signal (a NULL pointer,
modelled by `none`). -/
def OD_find (od : OD_t) (index : Nat) : Option OD_entry_t :=
  OD_findRange od.list index 0 od.list.length

/-! ## Shape predicates and fixtures -/

/-- Shape test: Variable, with or without limits. -/
def OD_isVarShape : OD_basicObject → Bool
  | .var _ => true
  | .varLimits _ => true
  | _ => false

/-- Shape test: Array or Record, with or without limits. -/
def OD_isArrayOrRecordShape : OD_basicObject → Bool
  | .array _ => true
  | .arrayLimAttr _ => true
  | .record _ => true
  | .recordLimits _ => true
  | _ => false

/-- A record entry is well formed when its element list covers the whole
declared sub-index range `0 .. maxSubIndex` (the C generator emits one
element per sub-index). -/
def OD_recordLengthOk (entry : OD_entry_t) : Bool :=
  match OD_baseObject entry.odObject with
  | .record elems => entry.maxSubIndex < elems.length
  | .recordLimits elems => entry.maxSubIndex < elems.length
  | _ => true

/-- Is the entry present and its object extension-capable (extension bit
set in `odObjectType`)? -/
def OD_extensionCapable : Option OD_entry_t → Bool
  | none => false
  | some entry => OD_isExtended entry.odObject

/-- Is the IO extension of an extended object not (yet) installed — a NULL
extension cell, or a cell whose application object reference is unset? -/
def OD_extNotInstalled (e : OD_obj_extended_t) : Bool :=
  match e.extIOref with
  | none => true
  | some x => x.object.isNone

/-- Fixture: interpretation of application read/write functions used by
the concrete witness instantiations. -/
def ODwit_env : AppEnv :=
  ⟨fun _ _ st _ => (0, [], ODR_DEV_INCOMPAT, st),
   fun _ mem st _ => (0, ODR_DEV_INCOMPAT, st, mem)⟩

/-- Fixture: a variable entry at index 5. -/
def ODwit_varA : OD_entry_t := ⟨5, 0, 0, .basic (.var ⟨none, 1, 1⟩)⟩

/-- Fixture: a variable entry at index 10. -/
def ODwit_varB : OD_entry_t := ⟨10, 0, 0, .basic (.var ⟨none, 1, 1⟩)⟩

/-- Fixture: a two-entry Object Dictionary, ascending by index. -/
def ODwit_od : OD_t := ⟨[ ODwit_varA, ODwit_varB]⟩

/-- Fixture: a record entry with `maxSubIndex = 2` and three elements. -/
def ODwit_recEntry : OD_entry_t :=
  ⟨0x1018, 2, 0, .basic (.record [⟨none, 1, 1⟩, ⟨none, 1, 4⟩, ⟨none, 1, 4⟩])⟩

/-- Fixture: a resolved sub-entry carrying the limits [-5, 10]. -/
def ODwit_limitsSub : OD_subEntry_t :=
  ⟨0x1017, 0, 0, 0, 3, -5, 10, none, .odOriginal, .odOriginal⟩

/-- Fixture: original object of an extended entry (5 data bytes at
pointer 0). -/
def ODwit_orig : OD_obj_var_t := ⟨some 0, 3, 5⟩

/-- Fixture: extended wrapper around `ODwit_orig` with an empty (not yet
installed) extension cell. -/
def ODwit_ext : OD_obj_extended_t :=
  ⟨none, some ⟨none, .odOriginal, .odOriginal⟩, .var ODwit_orig⟩

/-- Fixture: the extended entry before extension installation. -/
def ODwit_extEntry : OD_entry_t := ⟨0x1001, 0, 1, .extended ODwit_ext⟩

/-- Fixture: the extended entry after installing application object 7 and
application functions 1 and 2. -/
def ODwit_extEntryAfter : OD_entry_t :=
  ⟨0x1001, 0, 1, .extended ⟨none, some ⟨some 7, .app 1, .app 2⟩,
                            .var ODwit_orig⟩⟩

/-- Fixture: heap with arrays of 5, 2, 4 and 8 zero bytes. -/
def ODwit_mem : Mem := [[0, 0, 0, 0, 0], [0, 0], [0, 0, 0, 0],
                        [0, 0, 0, 0, 0, 0, 0, 0]]

/-- Fixture: a readable 5-byte variable entry backed by pointer 0. -/
def ODwit_len5Entry : OD_entry_t := ⟨0x2000, 0, 0, .basic (.var ⟨some 0, 3, 5⟩)⟩

/-- Fixture: 1-byte readable/writable variable at pointer 0. -/
def ODwit_w1Entry : OD_entry_t := ⟨0x2001, 0, 0, .basic (.var ⟨some 0, 3, 1⟩)⟩

/-- Fixture: 2-byte readable/writable variable at pointer 1. -/
def ODwit_w2Entry : OD_entry_t := ⟨0x2002, 0, 0, .basic (.var ⟨some 1, 3, 2⟩)⟩

/-- Fixture: 4-byte readable/writable variable at pointer 2. -/
def ODwit_w4Entry : OD_entry_t := ⟨0x2003, 0, 0, .basic (.var ⟨some 2, 3, 4⟩)⟩

/-- Fixture: 8-byte readable/writable variable at pointer 3. -/
def ODwit_w8Entry : OD_entry_t := ⟨0x2004, 0, 0, .basic (.var ⟨some 3, 3, 8⟩)⟩

/-! ## Lookup correctness -/

/-- The Object Table invariant (§3): the entry list is strictly ascending
by index. -/
def OD_sorted (l : List OD_entry_t) : Prop :=
  l.Pairwise (fun a b => a.index < b.index)

theorem OD_findRange_sound (l : List OD_entry_t) (index : Nat) :
    ∀ lo hi e, OD_findRange l index lo hi = some e →
      e ∈ l ∧ e.index = index := by
  intro lo hi
  induction lo, hi using OD_findRange.induct l index with
  | case1 lo hi hle =>
    intro e h
    unfold OD_findRange at h
    rw [dif_pos hle] at h
    exact absurd h (by simp)
  | case2 lo hi hle hget =>
    intro e h
    unfold OD_findRange at h
    rw [dif_neg hle, hget] at h
    exact absurd h (by simp)
  | case3 lo hi hle e hget heq =>
    intro e' h
    unfold OD_findRange at h
    rw [dif_neg hle, hget] at h
    simp only [if_pos heq] at h
    cases h
    exact ⟨List.getElem?_mem hget, heq.symm⟩
  | case4 lo hi hle e hget hne hlt ih =>
    intro e' h
    unfold OD_findRange at h
    rw [dif_neg hle, hget] at h
    simp only [if_neg hne, if_pos hlt] at h
    exact ih e' h
  | case5 lo hi hle e hget hne hnlt ih =>
    intro e' h
    unfold OD_findRange at h
    rw [dif_neg hle, hget] at h
    simp only [if_neg hne, if_neg hnlt] at h
    exact ih e' h

theorem OD_findRange_complete (l : List OD_entry_t) (hs : OD_sorted l)
    (k : Nat) (hk : k < l.length) :
    ∀ lo hi, lo ≤ k → k < hi → hi ≤ l.length →
      OD_findRange l (l[k].index) lo hi = some l[k] := by
  have hmono : ∀ (i j : Nat) (_hi : i < l.length) (_hj : j < l.length),
      i < j → l[i].index < l[j].index :=
    List.pairwise_iff_getElem.mp hs
  intro lo hi
  induction lo, hi using OD_findRange.induct l (l[k].index) with
  | case1 lo hi hle =>
    intro hlok hkhi hhil
    omega
  | case2 lo hi hle hget =>
    intro hlok hkhi hhil
    have hmid : (lo + hi) / 2 < l.length := by omega
    rw [List.getElem?_eq_getElem hmid] at hget
    exact absurd hget (by simp)
  | case3 lo hi hle e hget heq =>
    intro hlok hkhi hhil
    have hmid : (lo + hi) / 2 < l.length := by omega
    have he : l[(lo + hi) / 2] = e := by
      rw [List.getElem?_eq_getElem hmid] at hget
      cases hget
      rfl
    have hkm : k = (lo + hi) / 2 := by
      by_contra hne
      rcases Nat.lt_or_ge k ((lo + hi) / 2) with hlt | hge
      · have := hmono k ((lo + hi) / 2) hk hmid hlt
        rw [he, ← heq] at this
        omega
      · have hgt : (lo + hi) / 2 < k := by omega
        have := hmono ((lo + hi) / 2) k hmid hk hgt
        rw [he, ← heq] at this
        omega
    unfold OD_findRange
    rw [dif_neg hle, hget]
    simp only [if_pos heq]
    subst hkm
    rw [he]
  | case4 lo hi hle e hget hne hlt ih =>
    intro hlok hkhi hhil
    have hmid : (lo + hi) / 2 < l.length := by omega
    have he : l[(lo + hi) / 2] = e := by
      rw [List.getElem?_eq_getElem hmid] at hget
      cases hget
      rfl
    have hkm : k < (lo + hi) / 2 := by
      by_contra h'
      rcases Nat.eq_or_lt_of_le (Nat.le_of_not_lt h') with h'' | h''
      · have hek : l[k] = e := by
          simp only [← h'']
          exact he
        exact hne (by rw [hek])
      · have := hmono ((lo + hi) / 2) k hmid hk h''
        rw [he] at this
        omega
    unfold OD_findRange
    rw [dif_neg hle, hget]
    simp only [if_neg hne, if_pos hlt]
    exact ih hlok hkm (by omega)
  | case5 lo hi hle e hget hne hnlt ih =>
    intro hlok hkhi hhil
    have hmid : (lo + hi) / 2 < l.length := by omega
    have he : l[(lo + hi) / 2] = e := by
      rw [List.getElem?_eq_getElem hmid] at hget
      cases hget
      rfl
    have hgt : e.index < l[k].index := by
      rcases Nat.lt_trichotomy l[k].index e.index with h' | h' | h'
      · exact absurd h' hnlt
      · exact absurd h' hne
      · exact h'
    have hkm : (lo + hi) / 2 < k := by
      by_contra h'
      rcases Nat.eq_or_lt_of_le (Nat.le_of_not_lt h') with h'' | h''
      · have hek : l[k] = e := by
          simp only [h'']
          exact he
        rw [hek] at hgt
        omega
      · have := hmono k ((lo + hi) / 2) hk hmid h''
        rw [he] at this
        omega
    unfold OD_findRange
    rw [dif_neg hle, hget]
    simp only [if_neg hne, if_neg hnlt]
    exact ih hkm hkhi hhil

/-- C3: for every object dictionary whose entry list is strictly ascending
by index (including the empty dictionary), `OD_find` returns the k-th
entry for every index present in the list, and returns the not-found
signal (NULL, modelled by `none`) for every index not present — in
particular at the extreme 16-bit index values 0x0000 and 0xFFFF, which the
universal quantification over `Nat` indices covers. -/
theorem OD_find_sorted_correct :
    ∀ od : OD_t, OD_sorted od.list →
      (∀ (k : Nat) (hk : k < od.list.length),
         OD_find od od.list[k].index = some od.list[k]) ∧
      (∀ i : Nat, (∀ e ∈ od.list, e.index ≠ i) → OD_find od i = none) := by
  intro od hs
  constructor
  · intro k hk
    exact OD_findRange_complete od.list hs k hk 0 od.list.length
      (Nat.zero_le k) hk (le_refl _)
  · intro i hnone
    cases hfind : OD_find od i with
    | none => rfl
    | some e =>
      have hsound := OD_findRange_sound od.list i 0 od.list.length e hfind
      exact absurd hsound.2 (hnone e hsound.1)

/-- Witness for C3 on the concrete two-entry dictionary `ODwit_od`
(entries at indices 5 and 10): both present indices are found, and the
absent indices 0x0000, 0xFFFF and 7 give the not-found signal. -/
theorem OD_find_sorted_correct_witness :
    OD_find ODwit_od 5 = some ODwit_varA ∧
    OD_find ODwit_od 10 = some ODwit_varB ∧
    OD_find ODwit_od 0x0000 = none ∧
    OD_find ODwit_od 0xFFFF = none ∧
    OD_find ODwit_od 7 = none := by
  have h := OD_find_sorted_correct ODwit_od (by
    unfold OD_sorted ODwit_od
    decide)
  refine ⟨h.1 0 (by decide), h.1 1 (by decide), h.2 0 (by decide),
          h.2 0xFFFF (by decide), h.2 7 (by decide)⟩

/-- C10: in the `ODR_t` enumeration the enumerators `ODR_DATA_DEV_STATE`
and `ODR_OD_MISSING` carry the same numeric value 23, no enumerator has
value 24, and consequently every function of the result code — in
particular `OD_getSDOabortCode` — maps the two error conditions to the
same value, so they are indistinguishable to every caller. -/
theorem ODR_dataDevState_odMissing_collision :
    ODR_DATA_DEV_STATE = ODR_OD_MISSING ∧
    ODR_DATA_DEV_STATE = 23 ∧
    (24 : Int) ∉ ODR_enumValues ∧
    (∀ f : Int → Nat, f ODR_DATA_DEV_STATE = f ODR_OD_MISSING) ∧
    OD_getSDOabortCode ODR_DATA_DEV_STATE = OD_getSDOabortCode ODR_OD_MISSING :=
  ⟨rfl, rfl, by decide, fun _ => rfl, rfl⟩

/-- C9: `OD_rwRestart` zeroes the cursor's `dataOffset`, leaves
`dataObject` and `dataLength` unchanged (so the restarted stream is
exactly a fresh cursor for the same object), and is idempotent. -/
theorem OD_rwRestart_spec :
    ∀ stream : OD_stream_t,
      OD_rwRestart stream =
        { dataObject := stream.dataObject, dataLength := stream.dataLength,
          dataOffset := 0 } ∧
      (OD_rwRestart stream).dataOffset = 0 ∧
      (OD_rwRestart stream).dataObject = stream.dataObject ∧
      (OD_rwRestart stream).dataLength = stream.dataLength ∧
      OD_rwRestart (OD_rwRestart stream) = OD_rwRestart stream :=
  fun _ => ⟨rfl, rfl, rfl, rfl, rfl⟩

/-- C4: `OD_checkLimits` (translated verbatim from the header) returns the
too-low code exactly when the value is below `lowLimit`, the too-high code
exactly when it is above `highLimit`, and success exactly when it is
inside the inclusive range — provided `lowLimit ≤ highLimit`; when
`lowLimit > highLimit` (the disabled sentinel) it returns success for
every value. -/
theorem OD_checkLimits_spec :
    ∀ (subEntry : OD_subEntry_t) (val : Int),
      (subEntry.lowLimit ≤ subEntry.highLimit →
        ((OD_checkLimits subEntry val = ODR_VALUE_LOW ↔
            val < subEntry.lowLimit) ∧
         (OD_checkLimits subEntry val = ODR_VALUE_HIGH ↔
            subEntry.highLimit < val) ∧
         (OD_checkLimits subEntry val = ODR_OK ↔
            subEntry.lowLimit ≤ val ∧ val ≤ subEntry.highLimit))) ∧
      (subEntry.highLimit < subEntry.lowLimit →
        OD_checkLimits subEntry val = ODR_OK) := by
  intro se v
  constructor
  · intro hle
    unfold OD_checkLimits
    simp only [if_pos hle]
    refine ⟨?_, ?_, ?_⟩ <;>
      split_ifs with h1 h2 <;>
        simp [ ODR_VALUE_LOW, ODR_VALUE_HIGH, ODR_OK] <;> omega
  · intro hgt
    unfold OD_checkLimits
    rw [if_neg (by omega)]

/-- Witness for C4 at the concrete sub-entry `ODwit_limitsSub`
(limits [-5, 10]): value 11 is reported too high. -/
theorem OD_checkLimits_spec_witness :
    OD_checkLimits ODwit_limitsSub 11 = ODR_VALUE_HIGH := by
  have h := OD_checkLimits_spec ODwit_limitsSub 11
  exact ((h.1 (by decide)).2.1).mpr (by decide)

theorem OD_abortLookup_not_mem (t : List (Int × Nat)) (rc : Int)
    (h : rc ∉ t.map Prod.fst) : OD_abortLookup t rc = none := by
  induction t with
  | nil => rfl
  | cons hd tl ih =>
    obtain ⟨k, v⟩ := hd
    simp only [List.map_cons, List.mem_cons] at h
    push_neg at h
    unfold OD_abortLookup
    rw [if_neg h.1]
    exact ih h.2

/-- C2: `OD_getSDOabortCode` is total — every defined result-code value of
`ODR_t` maps to its own distinct, stable numeric SDO abort code, and every
input outside the defined set (e.g. the unused value 24, or any value at
or beyond `ODR_COUNT`) maps to the fixed default abort code instead of
being undefined. -/
theorem OD_getSDOabortCode_total_distinct :
    (ODR_resultValues.map OD_getSDOabortCode).Pairwise (· ≠ ·) ∧
    ∀ rc : Int, rc ∉ ODR_resultValues →
      OD_getSDOabortCode rc = OD_abortCodeDefault := by
  constructor
  · decide
  · intro rc h
    have hkeys : OD_abortCodeTable.map Prod.fst = ODR_resultValues := by decide
    have hnone : OD_abortLookup OD_abortCodeTable rc = none := by
      apply OD_abortLookup_not_mem
      rw [hkeys]
      exact h
    unfold OD_getSDOabortCode
    rw [hnone]

/-- Witness for C2: the undefined enum value 24 maps to the default abort
code. -/
theorem OD_getSDOabortCode_total_distinct_witness :
    OD_getSDOabortCode 24 = OD_abortCodeDefault :=
  OD_getSDOabortCode_total_distinct.2 24 (by decide)

/-- C7: `OD_extensionIO_init` fails with no effect (returns false and
leaves the entry unchanged) whenever it does not install — in particular
whenever the entry is absent, the application object reference is unset,
or the entry's object is not extension-capable; and it returns true only
when all three preconditions hold, in which case the binding (object
reference plus read/write pair) is installed into the extension cell. -/
theorem OD_extensionIO_init_guards :
    ∀ (entry? : Option OD_entry_t) (object : Option Nat)
      (read : OD_readFn) (write : OD_writeFn),
      ((OD_extensionIO_init entry? object read write).1 = false →
        (OD_extensionIO_init entry? object read write).2 = entry?) ∧
      ((entry? = none ∨ object = none ∨
          OD_extensionCapable entry? = false) →
        (OD_extensionIO_init entry? object read write).1 = false) ∧
      ((OD_extensionIO_init entry? object read write).1 = true →
        entry? ≠ none ∧ object ≠ none ∧
        OD_extensionCapable entry? = true ∧
        (∃ (entry : OD_entry_t) (e : OD_obj_extended_t) (x : OD_extensionIO_t),
          entry? = some entry ∧ entry.odObject = .extended e ∧
          e.extIOref = some x ∧
          (OD_extensionIO_init entry? object read write).2 =
            some { entry with odObject := .extended { e with
              extIOref := some ⟨object, read, write⟩ } })) := by
  intro entry? object rf wf
  match entry?, object with
  | none, o =>
    refine ⟨fun _ => rfl, fun _ => rfl, fun h => absurd h (by simp [OD_extensionIO_init])⟩
  | some entry, none =>
    refine ⟨fun _ => rfl, fun _ => rfl, fun h => absurd h (by simp [OD_extensionIO_init])⟩
  | some entry, some obj =>
    match hobj : entry.odObject with
    | .basic b =>
      refine ⟨fun _ => ?_, fun _ => ?_, fun h => absurd h ?_⟩ <;>
        simp [OD_extensionIO_init, hobj]
    | .extended e =>
      match hx : e.extIOref with
      | none =>
        refine ⟨fun _ => ?_, fun _ => ?_, fun h => absurd h ?_⟩ <;>
          simp [OD_extensionIO_init, hobj, hx]
      | some x =>
        refine ⟨?_, ?_, ?_⟩
        · intro h
          exact absurd h (by simp [OD_extensionIO_init, hobj, hx])
        · intro h
          rcases h with h | h | h
          · exact absurd h (by simp)
          · exact absurd h (by simp)
          · rw [OD_extensionCapable] at h
            simp [OD_isExtended, hobj] at h
        · intro _
          refine ⟨by simp, by simp, by simp [OD_extensionCapable, OD_isExtended, hobj], entry, e, x, rfl, hobj, hx, ?_⟩
          simp [OD_extensionIO_init, hobj, hx]

/-- Witness for C7 at concrete inputs: an absent entry fails with no
effect; a concrete extended entry with object 7 succeeds installing the
binding. -/
theorem OD_extensionIO_init_guards_witness :
    (OD_extensionIO_init none (some 7) (.app 1) (.app 2)).1 = false ∧
    (OD_extensionIO_init none (some 7) (.app 1) (.app 2)).2 = none ∧
    ((OD_extensionIO_init (some ODwit_extEntry) (some 7)
        (.app 1) (.app 2)).1 = true →
      some ODwit_extEntry ≠ none) := by
  refine ⟨?_, ?_, ?_⟩
  · exact (OD_extensionIO_init_guards none (some 7) (.app 1) (.app 2)).2.1
      (Or.inl rfl)
  · exact (OD_extensionIO_init_guards none (some 7) (.app 1) (.app 2)).1
      (by decide)
  · intro h
    exact ((OD_extensionIO_init_guards (some ODwit_extEntry) (some 7)
      (.app 1) (.app 2)).2.2 h).1

theorem OD_getSub_resolve_error (entry : OD_entry_t) (sub : Nat) (c : Int)
    (h : OD_resolveBasic (OD_baseObject entry.odObject) entry.maxSubIndex sub
           = .error c) :
    OD_getSub (some entry) sub = .error c := by
  cases hobj : entry.odObject with
  | basic b =>
    rw [hobj] at h
    simp only [OD_baseObject] at h
    simp [OD_getSub, hobj, h]
  | extended e =>
    rw [hobj] at h
    simp only [OD_baseObject] at h
    simp [OD_getSub, hobj, h]

theorem OD_getSub_resolve_ok (entry : OD_entry_t) (sub : Nat)
    (m : OD_resolvedMeta)
    (h : OD_resolveBasic (OD_baseObject entry.odObject) entry.maxSubIndex sub
           = .ok m) :
    ∃ r, OD_getSub (some entry) sub = .ok r := by
  cases hobj : entry.odObject with
  | basic b =>
    rw [hobj] at h
    simp only [OD_baseObject] at h
    exact ⟨_, by simp [OD_getSub, hobj, h]; rfl⟩
  | extended e =>
    rw [hobj] at h
    simp only [OD_baseObject] at h
    cases hx : e.extIOref with
    | none => exact ⟨_, by simp [OD_getSub, hobj, h, hx]; rfl⟩
    | some x =>
      cases hxo : x.object with
      | none => exact ⟨_, by simp [OD_getSub, hobj, h, hx, hxo]; rfl⟩
      | some appObj => exact ⟨_, by simp [OD_getSub, hobj, h, hx, hxo]; rfl⟩

/-- C6: sub-index range validation of `OD_getSub` — an entry whose object
shape is a Variable (with or without limits, extended or not) resolves
only sub-index 0 and fails with `ODR_SUB_NOT_EXIST` on every other
sub-index; an entry whose object shape is an Array or Record (with or
without limits, extended or not, records well formed) resolves every
sub-index up to `maxSubIndex` and fails with `ODR_SUB_NOT_EXIST` beyond
it. -/
theorem OD_getSub_subindex_range :
    ∀ entry : OD_entry_t, OD_recordLengthOk entry = true →
      ((OD_isVarShape (OD_baseObject entry.odObject) = true →
         (∃ r, OD_getSub (some entry) 0 = .ok r) ∧
         (∀ s : Nat, s ≠ 0 →
            OD_getSub (some entry) s = .error ODR_SUB_NOT_EXIST)) ∧
       (OD_isArrayOrRecordShape (OD_baseObject entry.odObject) = true →
         (∀ s : Nat, s ≤ entry.maxSubIndex →
            ∃ r, OD_getSub (some entry) s = .ok r) ∧
         (∀ s : Nat, entry.maxSubIndex < s →
            OD_getSub (some entry) s = .error ODR_SUB_NOT_EXIST))) := by
  intro entry hwf
  constructor
  · intro hvar
    cases hb : OD_baseObject entry.odObject with
    | var v =>
      constructor
      · exact OD_getSub_resolve_ok entry 0 _ (by rw [hb]; simp [OD_resolveBasic]; rfl)
      · intro s hs
        exact OD_getSub_resolve_error entry s _
          (by rw [hb]; simp [OD_resolveBasic, hs])
    | varLimits v =>
      constructor
      · exact OD_getSub_resolve_ok entry 0 _ (by rw [hb]; simp [OD_resolveBasic]; rfl)
      · intro s hs
        exact OD_getSub_resolve_error entry s _
          (by rw [hb]; simp [OD_resolveBasic, hs])
    | array a => rw [hb] at hvar; simp [OD_isVarShape] at hvar
    | arrayLimAttr a => rw [hb] at hvar; simp [OD_isVarShape] at hvar
    | record elems => rw [hb] at hvar; simp [OD_isVarShape] at hvar
    | recordLimits elems => rw [hb] at hvar; simp [OD_isVarShape] at hvar
  · intro harr
    cases hb : OD_baseObject entry.odObject with
    | var v => rw [hb] at harr; simp [OD_isArrayOrRecordShape] at harr
    | varLimits v => rw [hb] at harr; simp [OD_isArrayOrRecordShape] at harr
    | array a =>
      constructor
      · intro s hs
        by_cases h0 : s = 0
        · exact OD_getSub_resolve_ok entry s _
            (by rw [hb]; simp [OD_resolveBasic, h0, Nat.not_lt.mpr hs]; rfl)
        · exact OD_getSub_resolve_ok entry s _
            (by rw [hb]; simp [OD_resolveBasic, h0, Nat.not_lt.mpr hs]; rfl)
      · intro s hs
        exact OD_getSub_resolve_error entry s _
          (by rw [hb]; simp [OD_resolveBasic, hs])
    | arrayLimAttr a =>
      constructor
      · intro s hs
        by_cases h0 : s = 0
        · exact OD_getSub_resolve_ok entry s _
            (by rw [hb]; simp [OD_resolveBasic, h0, Nat.not_lt.mpr hs]; rfl)
        · exact OD_getSub_resolve_ok entry s _
            (by rw [hb]; simp [OD_resolveBasic, h0, Nat.not_lt.mpr hs]; rfl)
      · intro s hs
        exact OD_getSub_resolve_error entry s _
          (by rw [hb]; simp [OD_resolveBasic, hs])
    | record elems =>
      rw [OD_recordLengthOk, hb] at hwf
      simp only [decide_eq_true_eq] at hwf
      constructor
      · intro s hs
        have hlen : s < elems.length := by omega
        exact OD_getSub_resolve_ok entry s _
          (by rw [hb]
              simp [OD_resolveBasic, Nat.not_lt.mpr hs,
                    List.getElem?_eq_getElem hlen]
              rfl)
      · intro s hs
        exact OD_getSub_resolve_error entry s _
          (by rw [hb]; simp [OD_resolveBasic, hs])
    | recordLimits elems =>
      rw [OD_recordLengthOk, hb] at hwf
      simp only [decide_eq_true_eq] at hwf
      constructor
      · intro s hs
        have hlen : s < elems.length := by omega
        exact OD_getSub_resolve_ok entry s _
          (by rw [hb]
              simp [OD_resolveBasic, Nat.not_lt.mpr hs,
                    List.getElem?_eq_getElem hlen]
              rfl)
      · intro s hs
        exact OD_getSub_resolve_error entry s _
          (by rw [hb]; simp [OD_resolveBasic, hs])

/-- Witness for C6: the concrete variable entry `ODwit_w1Entry` resolves
sub-index 0 and rejects sub-index 1 with `ODR_SUB_NOT_EXIST`; the record
entry `ODwit_recEntry` (maxSubIndex 2) resolves sub-index 2 and rejects
sub-index 3 with `ODR_SUB_NOT_EXIST`. -/
theorem OD_getSub_subindex_range_witness :
    (∃ r, OD_getSub (some ODwit_w1Entry) 0 = .ok r) ∧
    OD_getSub (some ODwit_w1Entry) 1 = .error ODR_SUB_NOT_EXIST ∧
    (∃ r, OD_getSub (some ODwit_recEntry) 2 = .ok r) ∧
    OD_getSub (some ODwit_recEntry) 3 = .error ODR_SUB_NOT_EXIST := by
  have h1 := OD_getSub_subindex_range ODwit_w1Entry (by decide)
  have h2 := OD_getSub_subindex_range ODwit_recEntry (by decide)
  exact ⟨(h1.1 (by decide)).1, (h1.1 (by decide)).2 1 (by decide),
         (h2.2 (by decide)).1 2 (by decide), (h2.2 (by decide)).2 3 (by decide)⟩

/-- C1: order-dependent duality of `OD_getSub` on an extension-capable
entry.  Before `OD_extensionIO_init` has installed the extension (empty
cell or unset application object reference), the resolution is exactly the
resolution of the original (pre-extension) object with the default
read/write functions bound — only the PDO-flags reference comes from the
wrapper.  After a successful `OD_extensionIO_init entry object read
write`, the stream's data object is the application-supplied object and
the supplied custom read/write functions are bound, while attribute,
limits and declared length (and the rest of the sub-entry metadata) still
come from the original object's resolution. -/
theorem OD_getSub_extension_duality :
    ∀ (entry : OD_entry_t) (e : OD_obj_extended_t),
      entry.odObject = .extended e →
      ((OD_extNotInstalled e = true →
         ∀ subIndex : Nat,
           OD_getSub (some entry) subIndex =
             (OD_getSub
                 (some { entry with odObject := .basic e.odObjectOriginal })
                 subIndex).map
               (fun r => ({ r.1 with flagsPDO := e.flagsPDO }, r.2))) ∧
       (∀ (obj : Nat) (rf : OD_readFn) (wf : OD_writeFn)
          (entry' : OD_entry_t),
          OD_extensionIO_init (some entry) (some obj) rf wf =
            (true, some entry') →
          ∀ (subIndex : Nat) (se : OD_subEntry_t) (st : OD_stream_t),
            OD_getSub
                (some { entry with odObject := .basic e.odObjectOriginal })
                subIndex = .ok (se, st) →
            OD_getSub (some entry') subIndex =
              .ok ({ se with flagsPDO := e.flagsPDO, read := rf, write := wf },
                   { st with dataObject := some (obj, 0) }))) := by
  intro entry e hobj
  constructor
  · intro hnotinst subIndex
    cases hres : OD_resolveBasic e.odObjectOriginal entry.maxSubIndex subIndex with
    | error c =>
      simp [OD_getSub, hobj, hres, Except.map]
    | ok m =>
      rw [OD_extNotInstalled] at hnotinst
      cases hx : e.extIOref with
      | none =>
        simp [OD_getSub, hobj, hres, hx, Except.map]
      | some x =>
        rw [hx] at hnotinst
        simp only [Option.isNone_iff_eq_none] at hnotinst
        simp [OD_getSub, hobj, hres, hx, hnotinst, Except.map]
  · intro obj rf wf entry' hinit subIndex se st hbasic
    cases hx : e.extIOref with
    | none =>
      simp [OD_extensionIO_init, hobj, hx] at hinit
    | some x =>
      have hentry' : entry' = { entry with odObject := .extended { e with
          extIOref := some ⟨some obj, rf, wf⟩ } } := by
        simp only [OD_extensionIO_init, hobj, hx, Prod.mk.injEq, true_and,
                   Option.some.injEq] at hinit
        exact hinit.symm
      subst hentry'
      cases hres : OD_resolveBasic e.odObjectOriginal entry.maxSubIndex subIndex with
      | error c =>
        rw [show OD_getSub
              (some { entry with odObject := .basic e.odObjectOriginal })
              subIndex = .error c by simp [OD_getSub, hres]] at hbasic
        exact absurd hbasic (by simp)
      | ok m =>
        have hlit : OD_getSub
            (some { entry with odObject := .basic e.odObjectOriginal })
            subIndex =
            .ok ({ index := entry.index, subIndex := subIndex,
                   maxSubIndex := entry.maxSubIndex,
                   storageGroup := entry.storageGroup,
                   attrib := m.attrib, lowLimit := m.lowLimit,
                   highLimit := m.highLimit, flagsPDO := none,
                   read := .odOriginal, write := .odOriginal },
                 { dataObject := m.dataLoc, dataLength := m.dataLength,
                   dataOffset := 0 }) := by
          simp [OD_getSub, hres]
        rw [hlit] at hbasic
        injection hbasic with hpair
        injection hpair with h1 h2
        subst h1
        subst h2
        simp [OD_getSub, hres]

/-- Witness for C1 on the concrete extended entry `ODwit_extEntry`: before
installation the resolution equals the original object's resolution (with
default read/write), and after installing application object 7 with
application functions 1 and 2 the resolution binds the new object and
functions while the metadata (attribute 3, disabled limits, length 5)
still comes from the original object. -/
theorem OD_getSub_extension_duality_witness :
    (OD_getSub (some ODwit_extEntry) 0 =
      (OD_getSub (some { ODwit_extEntry with
          odObject := .basic ODwit_ext.odObjectOriginal }) 0).map
        (fun r => ({ r.1 with flagsPDO := ODwit_ext.flagsPDO }, r.2))) ∧
    OD_getSub (some ODwit_extEntryAfter) 0 =
      .ok ({ index := 0x1001, subIndex := 0, maxSubIndex := 0,
             storageGroup := 1, attrib := 3, lowLimit := 1, highLimit := 0,
             flagsPDO := none, read := .app 1, write := .app 2 },
           { dataObject := some (7, 0), dataLength := 5, dataOffset := 0 }) := by
  have h := OD_getSub_extension_duality ODwit_extEntry ODwit_ext rfl
  refine ⟨h.1 (by decide) 0, ?_⟩
  exact h.2 7 (.app 1) (.app 2) ODwit_extEntryAfter (by decide) 0
    { index := 0x1001, subIndex := 0, maxSubIndex := 0, storageGroup := 1,
      attrib := 3, lowLimit := 1, highLimit := 0, flagsPDO := none,
      read := .odOriginal, write := .odOriginal }
    { dataObject := some (0, 0), dataLength := 5, dataOffset := 0 }
    rfl

theorem OD_readOriginal_some (mem : Mem) (loc : Nat × Nat) (L o c : Nat) :
    OD_readOriginal mem ⟨some loc, L, o⟩ c =
      (min c (L - o), memRead mem loc.1 (loc.2 + o) (min c (L - o)),
       (if L - o ≤ c then ODR_OK else ODR_PARTIAL),
       ⟨some loc, L, o + min c (L - o)⟩) := by
  obtain ⟨p, base⟩ := loc
  rfl

theorem OD_getSub_dataOffset (entry? : Option OD_entry_t) (sub : Nat)
    (se : OD_subEntry_t) (st : OD_stream_t)
    (h : OD_getSub entry? sub = .ok (se, st)) : st.dataOffset = 0 := by
  cases entry? with
  | none => exact absurd h (by simp [OD_getSub])
  | some entry =>
    cases hobj : entry.odObject with
    | basic b =>
      cases hres : OD_resolveBasic b entry.maxSubIndex sub with
      | error c =>
        simp [OD_getSub, hobj, hres] at h
      | ok m =>
        simp [OD_getSub, hobj, hres] at h
        obtain ⟨h1, h2⟩ := h
        subst h2
        rfl
    | extended e =>
      cases hres : OD_resolveBasic e.odObjectOriginal entry.maxSubIndex sub with
      | error c =>
        simp [OD_getSub, hobj, hres] at h
      | ok m =>
        cases hx : e.extIOref with
        | none =>
          simp [OD_getSub, hobj, hres, hx] at h
          obtain ⟨h1, h2⟩ := h
          subst h2
          rfl
        | some x =>
          cases hxo : x.object with
          | none =>
            simp [OD_getSub, hobj, hres, hx, hxo] at h
            obtain ⟨h1, h2⟩ := h
            subst h2
            rfl
          | some appObj =>
            simp [OD_getSub, hobj, hres, hx, hxo] at h
            obtain ⟨h1, h2⟩ := h
            subst h2
            rfl

theorem OD_readSeq_cons (mem : Mem) (stream : OD_stream_t) (c : Nat)
    (cs : List Nat) :
    OD_readSeq mem stream (c :: cs) =
      (let r := OD_readOriginal mem stream c
       if r.2.2.1 = ODR_PARTIAL then
         ((r.1, r.2.2.1) :: (OD_readSeq mem r.2.2.2 cs).1,
          (OD_readSeq mem r.2.2.2 cs).2)
       else ([(r.1, r.2.2.1)], r.2.2.2)) := rfl

theorem OD_readSeq_drain :
    ∀ (caps : List Nat) (mem : Mem) (loc : Nat × Nat) (L o : Nat),
      o < L → (∀ c ∈ caps, 0 < c) → L ≤ o + caps.sum →
      ((OD_readSeq mem ⟨some loc, L, o⟩ caps).1.map Prod.fst).sum = L - o ∧
      (∃ n, (OD_readSeq mem ⟨some loc, L, o⟩ caps).1.getLast? =
         some (n, ODR_OK)) ∧
      (OD_readSeq mem ⟨some loc, L, o⟩ caps).1 ≠ [] ∧
      (OD_readSeq mem ⟨some loc, L, o⟩ caps).2.dataOffset = L := by
  intro caps
  induction caps with
  | nil =>
    intro mem loc L o ho hpos hsum
    exfalso
    simp at hsum
    omega
  | cons c cs ih =>
    intro mem loc L o ho hpos hsum
    have hc : 0 < c := hpos c (by simp)
    by_cases hcase : L - o ≤ c
    · have hred : OD_readSeq mem ⟨some loc, L, o⟩ (c :: cs) =
          ([(min c (L - o), ODR_OK)], ⟨some loc, L, o + min c (L - o)⟩) := by
        rw [OD_readSeq_cons, OD_readOriginal_some]
        simp [hcase, ODR_OK, ODR_PARTIAL]
      rw [hred]
      refine ⟨?_, ⟨min c (L - o), rfl⟩, by simp, ?_⟩
      · simp
        omega
      · simp
        omega
    · have hmin : min c (L - o) = c := by omega
      have hred : OD_readSeq mem ⟨some loc, L, o⟩ (c :: cs) =
          ((c, ODR_PARTIAL) ::
             (OD_readSeq mem ⟨some loc, L, o + c⟩ cs).1,
           (OD_readSeq mem ⟨some loc, L, o + c⟩ cs).2) := by
        rw [OD_readSeq_cons, OD_readOriginal_some]
        simp [hcase, hmin]
      have ho' : o + c < L := by omega
      have hsum' : L ≤ o + c + cs.sum := by
        simp at hsum
        omega
      have hih := ih mem loc L (o + c) ho'
        (fun x hx => hpos x (by simp [hx])) hsum'
      rw [hred]
      refine ⟨?_, ?_, by simp, hih.2.2.2⟩
      · simp [hih.1]
        omega
      · obtain ⟨n, hn⟩ := hih.2.1
        refine ⟨n, ?_⟩
        rcases hrest : (OD_readSeq mem ⟨some loc, L, o + c⟩ cs).1 with _ | ⟨y, ys⟩
        · exact absurd hrest hih.2.2.1
        · rw [hrest] at hn
          rw [List.getLast?_cons_cons]
          exact hn

/-- C5: chunked transfer with the default read.  For a readable object of
declared length `L > 0` resolved by `OD_getSub` (fresh cursor), a first
call with buffer capacity `C < L` returns exactly `C` bytes with the
partial code; repeated calls with the same cursor (positive capacities
summing to at least `L`) transfer byte counts summing to exactly `L`, with
the final call returning success. -/
theorem OD_readOriginal_chunked :
    ∀ (mem : Mem) (entry : OD_entry_t) (subIndex : Nat)
      (se : OD_subEntry_t) (st : OD_stream_t) (loc : Nat × Nat)
      (L C : Nat) (cs : List Nat),
      OD_getSub (some entry) subIndex = .ok (se, st) →
      se.read = .odOriginal →
      se.attrib &&& 1 ≠ 0 →
      st.dataObject = some loc → st.dataLength = L →
      0 < L → 0 < C → C < L →
      (∀ c ∈ cs, 0 < c) → L ≤ C + cs.sum →
      ∃ results sf,
        OD_readSeq mem st (C :: cs) = (results, sf) ∧
        results.head? = some (C, ODR_PARTIAL) ∧
        (results.map Prod.fst).sum = L ∧
        (∃ n, results.getLast? = some (n, ODR_OK)) ∧
        sf.dataOffset = L := by
  intro mem entry subIndex se st loc L C cs hget hread hattr hobj hlen hL hC
    hCL hpos hsum
  have hoff := OD_getSub_dataOffset _ _ _ _ hget
  have hst : st = ⟨some loc, L, 0⟩ := by
    obtain ⟨dO, dL, dOff⟩ := st
    simp_all
  subst hst
  have hmin : min C (L - 0) = C := by omega
  have hncase : ¬ (L - 0 ≤ C) := by omega
  have hred : OD_readSeq mem ⟨some loc, L, 0⟩ (C :: cs) =
      ((C, ODR_PARTIAL) :: (OD_readSeq mem ⟨some loc, L, C⟩ cs).1,
       (OD_readSeq mem ⟨some loc, L, C⟩ cs).2) := by
    rw [OD_readSeq_cons, OD_readOriginal_some]
    dsimp only
    rw [if_neg hncase, hmin, Nat.zero_add]
    simp
  have hdrain := OD_readSeq_drain cs mem loc L C (by omega) hpos (by omega)
  refine ⟨(C, ODR_PARTIAL) :: (OD_readSeq mem ⟨some loc, L, C⟩ cs).1,
          (OD_readSeq mem ⟨some loc, L, C⟩ cs).2, hred, by simp, ?_, ?_,
          hdrain.2.2.2⟩
  · simp only [List.map_cons, List.sum_cons, hdrain.1]
    omega
  · obtain ⟨n, hn⟩ := hdrain.2.1
    refine ⟨n, ?_⟩
    rcases hrest : (OD_readSeq mem ⟨some loc, L, C⟩ cs).1 with _ | ⟨y, ys⟩
    · exact absurd hrest hdrain.2.2.1
    · rw [hrest] at hn
      rw [List.getLast?_cons_cons]
      exact hn

/-- Witness for C5: reading the concrete 5-byte variable
`ODwit_len5Entry` with buffer capacities 2, 2, 2 transfers 2 + 2 + 1 = 5
bytes: first call partial with exactly 2 bytes, final call successful. -/
theorem OD_readOriginal_chunked_witness :
    ∃ results sf,
      OD_readSeq ODwit_mem
        { dataObject := some (0, 0), dataLength := 5, dataOffset := 0 }
        (2 :: [2, 2]) = (results, sf) ∧
      results.head? = some (2, ODR_PARTIAL) ∧
      (results.map Prod.fst).sum = 5 ∧
      (∃ n, results.getLast? = some (n, ODR_OK)) ∧
      sf.dataOffset = 5 :=
  OD_readOriginal_chunked ODwit_mem ODwit_len5Entry 0
    { index := 0x2000, subIndex := 0, maxSubIndex := 0, storageGroup := 0,
      attrib := 3, lowLimit := 1, highLimit := 0, flagsPDO := none,
      read := .odOriginal, write := .odOriginal }
    { dataObject := some (0, 0), dataLength := 5, dataOffset := 0 }
    (0, 0) 5 2 [2, 2] rfl rfl (by decide) rfl rfl (by decide) (by decide)
    (by decide) (by decide) (by decide)

theorem memWrite_read (mem : Mem) (p off : Nat) (bs : List Nat)
    (hp : p < mem.length)
    (hfit : off + bs.length ≤ (mem.getD p []).length) :
    memRead (memWrite mem p off bs) p off bs.length = bs := by
  unfold memRead memWrite
  have hset : ((mem.set p ((mem.getD p []).take off ++ bs ++
      (mem.getD p []).drop (off + bs.length))).getD p []) =
      (mem.getD p []).take off ++ bs ++
        (mem.getD p []).drop (off + bs.length) := by
    rw [List.getD_eq_getElem?_getD, List.getElem?_set_self (by omega)]
    rfl
  rw [hset]
  have htake : ((mem.getD p []).take off).length = off := by
    rw [List.length_take]
    omega
  rw [List.append_assoc, List.drop_left' htake, List.take_left' rfl]

theorem bytesOfNat_length (w v : Nat) : (bytesOfNat w v).length = w := by
  induction w generalizing v with
  | zero => rfl
  | succ w ih => simp [bytesOfNat, ih]

theorem natOfBytes_bytesOfNat (w v : Nat) (h : v < 256 ^ w) :
    natOfBytes (bytesOfNat w v) = v := by
  induction w generalizing v with
  | zero =>
    simp [bytesOfNat, natOfBytes]
    simp at h
    omega
  | succ w ih =>
    have hpow : 256 ^ (w + 1) = 256 * 256 ^ w := by
      rw [pow_succ]
      ring
    have hdiv : v / 256 < 256 ^ w := by
      rw [hpow] at h
      omega
    simp [bytesOfNat, natOfBytes, ih (v / 256) hdiv]
    omega

theorem intOfBytes_bytesOfInt (w : Nat) (hw : 0 < w) (v : Int)
    (hlo : -(2 ^ (8 * w - 1)) ≤ v) (hhi : v < 2 ^ (8 * w - 1)) :
    intOfBytes w (bytesOfInt w v) = v := by
  have hpow : (256 : Nat) ^ w = 2 ^ (8 * w) := by
    rw [pow_mul]
    norm_num
  have h8 : 8 * w = (8 * w - 1) + 1 := by omega
  have h2 : (2 : Nat) ^ (8 * w) = 2 * 2 ^ (8 * w - 1) := by
    calc (2 : Nat) ^ (8 * w) = 2 ^ ((8 * w - 1) + 1) := by rw [← h8]
      _ = 2 ^ (8 * w - 1) * 2 := pow_succ 2 (8 * w - 1)
      _ = 2 * 2 ^ (8 * w - 1) := by ring
  have hcastA : ((2 ^ (8 * w - 1) : Nat) : Int) = 2 ^ (8 * w - 1) := by
    push_cast
    ring
  have hcastM : ((2 ^ (8 * w) : Nat) : Int) = 2 ^ (8 * w) := by
    push_cast
    ring
  rw [← hcastA] at hlo hhi
  simp only [intOfBytes, bytesOfInt]
  rw [← hcastM]
  rcases le_or_lt 0 v with hv | hv
  · have hmod : v % ((2 ^ (8 * w) : Nat) : Int) = v :=
      Int.emod_eq_of_lt hv (by omega)
    rw [hmod]
    rw [natOfBytes_bytesOfNat w v.toNat (by rw [hpow]; omega)]
    rw [if_pos (by omega)]
    omega
  · have hmod : v % ((2 ^ (8 * w) : Nat) : Int) = v + (2 ^ (8 * w) : Nat) := by
      have h1 : (v + ((2 ^ (8 * w) : Nat) : Int)) % ((2 ^ (8 * w) : Nat) : Int) =
          v % ((2 ^ (8 * w) : Nat) : Int) := Int.add_emod_self
      rw [← h1]
      exact Int.emod_eq_of_lt (by omega) (by omega)
    rw [hmod]
    rw [natOfBytes_bytesOfNat w (v + ((2 ^ (8 * w) : Nat) : Int)).toNat
        (by rw [hpow]; omega)]
    rw [if_neg (by omega)]
    omega

theorem OD_getset_bytes_roundtrip
    (env : AppEnv) (mem : Mem) (entry : OD_entry_t) (sub : Nat)
    (se : OD_subEntry_t) (st : OD_stream_t) (p off : Nat) (bs : List Nat)
    (hget : OD_getSub (some entry) sub = .ok (se, st))
    (hr : se.read = .odOriginal) (hw : se.write = .odOriginal)
    (hobj : st.dataObject = some (p, off)) (hlen : st.dataLength = bs.length)
    (hp : p < mem.length)
    (hfit : off + bs.length ≤ (mem.getD p []).length) :
    OD_setBytes env mem (some entry) sub bs = (ODR_OK, memWrite mem p off bs) ∧
    OD_getBytes env (memWrite mem p off bs) (some entry) sub bs.length =
      (ODR_OK, bs) := by
  have hoff := OD_getSub_dataOffset _ _ _ _ hget
  have hst : st = ⟨some (p, off), bs.length, 0⟩ := by
    obtain ⟨a, b, c⟩ := st
    simp_all
  subst hst
  have hbytes := memWrite_read mem p off bs hp hfit
  constructor
  · simp [OD_setBytes, hget, hw, OD_applyWrite, OD_writeOriginal,
          ODR_OK, ODR_PARTIAL]
  · simp [OD_getBytes, hget, hr, OD_applyRead, OD_readOriginal, hbytes,
          ODR_OK, ODR_PARTIAL]

theorem OD_roundtrip_unsigned (w : Nat)
    (env : AppEnv) (mem : Mem) (entry : OD_entry_t) (sub : Nat)
    (se : OD_subEntry_t) (st : OD_stream_t) (p off v : Nat)
    (hget : OD_getSub (some entry) sub = .ok (se, st))
    (hr : se.read = .odOriginal) (hw : se.write = .odOriginal)
    (hobj : st.dataObject = some (p, off)) (hlen : st.dataLength = w)
    (hp : p < mem.length) (hfit : off + w ≤ (mem.getD p []).length)
    (hv : v < 256 ^ w) :
    (OD_setBytes env mem (some entry) sub (bytesOfNat w v)).1 = ODR_OK ∧
    ((OD_getBytes env (OD_setBytes env mem (some entry) sub
        (bytesOfNat w v)).2 (some entry) sub w).1,
     natOfBytes (OD_getBytes env (OD_setBytes env mem (some entry) sub
        (bytesOfNat w v)).2 (some entry) sub w).2) = (ODR_OK, v) := by
  have hlb := bytesOfNat_length w v
  have h := OD_getset_bytes_roundtrip env mem entry sub se st p off
    (bytesOfNat w v) hget hr hw hobj (by rw [hlen, hlb]) hp
    (by rw [hlb]; exact hfit)
  have h2 := h.2
  rw [hlb] at h2
  rw [h.1]
  dsimp only
  rw [h2]
  dsimp only
  rw [natOfBytes_bytesOfNat w v hv]
  exact ⟨rfl, rfl⟩

theorem OD_roundtrip_signed (w : Nat) (hwpos : 0 < w)
    (env : AppEnv) (mem : Mem) (entry : OD_entry_t) (sub : Nat)
    (se : OD_subEntry_t) (st : OD_stream_t) (p off : Nat) (v : Int)
    (hget : OD_getSub (some entry) sub = .ok (se, st))
    (hr : se.read = .odOriginal) (hw : se.write = .odOriginal)
    (hobj : st.dataObject = some (p, off)) (hlen : st.dataLength = w)
    (hp : p < mem.length) (hfit : off + w ≤ (mem.getD p []).length)
    (hlo : -(2 ^ (8 * w - 1)) ≤ v) (hhi : v < 2 ^ (8 * w - 1)) :
    (OD_setBytes env mem (some entry) sub (bytesOfInt w v)).1 = ODR_OK ∧
    ((OD_getBytes env (OD_setBytes env mem (some entry) sub
        (bytesOfInt w v)).2 (some entry) sub w).1,
     intOfBytes w (OD_getBytes env (OD_setBytes env mem (some entry) sub
        (bytesOfInt w v)).2 (some entry) sub w).2) = (ODR_OK, v) := by
  have hlb : (bytesOfInt w v).length = w := bytesOfNat_length w _
  have h := OD_getset_bytes_roundtrip env mem entry sub se st p off
    (bytesOfInt w v) hget hr hw hobj (by rw [hlen, hlb]) hp
    (by rw [hlb]; exact hfit)
  have h2 := h.2
  rw [hlb] at h2
  rw [h.1]
  dsimp only
  rw [h2]
  dsimp only
  rw [intOfBytes_bytesOfInt w hwpos v hlo hhi]
  exact ⟨rfl, rfl⟩

/-- C8: typed getter/setter round-trip.  For each fixed-width type T among
the 8/16/32/64-bit signed and unsigned integers and the 32/64-bit floats
(floats carried as their bit patterns, since the layer copies bytes
verbatim), on any entry/sub-index that resolves with the default IO to a
storage window of exactly sizeof(T) bytes and is readable and writable,
`OD_set_T` followed by `OD_get_T` returns `ODR_OK` for both calls and
yields the written value back bit-for-bit. -/
theorem OD_getset_roundtrip :
    (∀ (env : AppEnv) (mem : Mem) (entry : OD_entry_t) (sub : Nat)
       (se : OD_subEntry_t) (st : OD_stream_t) (p off : Nat) (v : Int),
       OD_getSub (some entry) sub = .ok (se, st) →
       se.read = .odOriginal → se.write = .odOriginal →
       se.attrib &&& 1 ≠ 0 → se.attrib &&& 2 ≠ 0 →
       st.dataObject = some (p, off) → st.dataLength = 1 →
       p < mem.length → off + 1 ≤ (mem.getD p []).length →
       -(2 ^ 7) ≤ v → v < 2 ^ 7 →
       (OD_set_i8 env mem (some entry) sub v).1 = ODR_OK ∧
       OD_get_i8 env (OD_set_i8 env mem (some entry) sub v).2
         (some entry) sub = (ODR_OK, v)) ∧
    (∀ (env : AppEnv) (mem : Mem) (entry : OD_entry_t) (sub : Nat)
       (se : OD_subEntry_t) (st : OD_stream_t) (p off : Nat) (v : Int),
       OD_getSub (some entry) sub = .ok (se, st) →
       se.read = .odOriginal → se.write = .odOriginal →
       se.attrib &&& 1 ≠ 0 → se.attrib &&& 2 ≠ 0 →
       st.dataObject = some (p, off) → st.dataLength = 2 →
       p < mem.length → off + 2 ≤ (mem.getD p []).length →
       -(2 ^ 15) ≤ v → v < 2 ^ 15 →
       (OD_set_i16 env mem (some entry) sub v).1 = ODR_OK ∧
       OD_get_i16 env (OD_set_i16 env mem (some entry) sub v).2
         (some entry) sub = (ODR_OK, v)) ∧
    (∀ (env : AppEnv) (mem : Mem) (entry : OD_entry_t) (sub : Nat)
       (se : OD_subEntry_t) (st : OD_stream_t) (p off : Nat) (v : Int),
       OD_getSub (some entry) sub = .ok (se, st) →
       se.read = .odOriginal → se.write = .odOriginal →
       se.attrib &&& 1 ≠ 0 → se.attrib &&& 2 ≠ 0 →
       st.dataObject = some (p, off) → st.dataLength = 4 →
       p < mem.length → off + 4 ≤ (mem.getD p []).length →
       -(2 ^ 31) ≤ v → v < 2 ^ 31 →
       (OD_set_i32 env mem (some entry) sub v).1 = ODR_OK ∧
       OD_get_i32 env (OD_set_i32 env mem (some entry) sub v).2
         (some entry) sub = (ODR_OK, v)) ∧
    (∀ (env : AppEnv) (mem : Mem) (entry : OD_entry_t) (sub : Nat)
       (se : OD_subEntry_t) (st : OD_stream_t) (p off : Nat) (v : Int),
       OD_getSub (some entry) sub = .ok (se, st) →
       se.read = .odOriginal → se.write = .odOriginal →
       se.attrib &&& 1 ≠ 0 → se.attrib &&& 2 ≠ 0 →
       st.dataObject = some (p, off) → st.dataLength = 8 →
       p < mem.length → off + 8 ≤ (mem.getD p []).length →
       -(2 ^ 63) ≤ v → v < 2 ^ 63 →
       (OD_set_i64 env mem (some entry) sub v).1 = ODR_OK ∧
       OD_get_i64 env (OD_set_i64 env mem (some entry) sub v).2
         (some entry) sub = (ODR_OK, v)) ∧
    (∀ (env : AppEnv) (mem : Mem) (entry : OD_entry_t) (sub : Nat)
       (se : OD_subEntry_t) (st : OD_stream_t) (p off : Nat) (v : Nat),
       OD_getSub (some entry) sub = .ok (se, st) →
       se.read = .odOriginal → se.write = .odOriginal →
       se.attrib &&& 1 ≠ 0 → se.attrib &&& 2 ≠ 0 →
       st.dataObject = some (p, off) → st.dataLength = 1 →
       p < mem.length → off + 1 ≤ (mem.getD p []).length →
       v < 2 ^ 8 →
       (OD_set_u8 env mem (some entry) sub v).1 = ODR_OK ∧
       OD_get_u8 env (OD_set_u8 env mem (some entry) sub v).2
         (some entry) sub = (ODR_OK, v)) ∧
    (∀ (env : AppEnv) (mem : Mem) (entry : OD_entry_t) (sub : Nat)
       (se : OD_subEntry_t) (st : OD_stream_t) (p off : Nat) (v : Nat),
       OD_getSub (some entry) sub = .ok (se, st) →
       se.read = .odOriginal → se.write = .odOriginal →
       se.attrib &&& 1 ≠ 0 → se.attrib &&& 2 ≠ 0 →
       st.dataObject = some (p, off) → st.dataLength = 2 →
       p < mem.length → off + 2 ≤ (mem.getD p []).length →
       v < 2 ^ 16 →
       (OD_set_u16 env mem (some entry) sub v).1 = ODR_OK ∧
       OD_get_u16 env (OD_set_u16 env mem (some entry) sub v).2
         (some entry) sub = (ODR_OK, v)) ∧
    (∀ (env : AppEnv) (mem : Mem) (entry : OD_entry_t) (sub : Nat)
       (se : OD_subEntry_t) (st : OD_stream_t) (p off : Nat) (v : Nat),
       OD_getSub (some entry) sub = .ok (se, st) →
       se.read = .odOriginal → se.write = .odOriginal →
       se.attrib &&& 1 ≠ 0 → se.attrib &&& 2 ≠ 0 →
       st.dataObject = some (p, off) → st.dataLength = 4 →
       p < mem.length → off + 4 ≤ (mem.getD p []).length →
       v < 2 ^ 32 →
       (OD_set_u32 env mem (some entry) sub v).1 = ODR_OK ∧
       OD_get_u32 env (OD_set_u32 env mem (some entry) sub v).2
         (some entry) sub = (ODR_OK, v)) ∧
    (∀ (env : AppEnv) (mem : Mem) (entry : OD_entry_t) (sub : Nat)
       (se : OD_subEntry_t) (st : OD_stream_t) (p off : Nat) (v : Nat),
       OD_getSub (some entry) sub = .ok (se, st) →
       se.read = .odOriginal → se.write = .odOriginal →
       se.attrib &&& 1 ≠ 0 → se.attrib &&& 2 ≠ 0 →
       st.dataObject = some (p, off) → st.dataLength = 8 →
       p < mem.length → off + 8 ≤ (mem.getD p []).length →
       v < 2 ^ 64 →
       (OD_set_u64 env mem (some entry) sub v).1 = ODR_OK ∧
       OD_get_u64 env (OD_set_u64 env mem (some entry) sub v).2
         (some entry) sub = (ODR_OK, v)) ∧
    (∀ (env : AppEnv) (mem : Mem) (entry : OD_entry_t) (sub : Nat)
       (se : OD_subEntry_t) (st : OD_stream_t) (p off : Nat) (v : Nat),
       OD_getSub (some entry) sub = .ok (se, st) →
       se.read = .odOriginal → se.write = .odOriginal →
       se.attrib &&& 1 ≠ 0 → se.attrib &&& 2 ≠ 0 →
       st.dataObject = some (p, off) → st.dataLength = 4 →
       p < mem.length → off + 4 ≤ (mem.getD p []).length →
       v < 2 ^ 32 →
       (OD_set_r32 env mem (some entry) sub v).1 = ODR_OK ∧
       OD_get_r32 env (OD_set_r32 env mem (some entry) sub v).2
         (some entry) sub = (ODR_OK, v)) ∧
    (∀ (env : AppEnv) (mem : Mem) (entry : OD_entry_t) (sub : Nat)
       (se : OD_subEntry_t) (st : OD_stream_t) (p off : Nat) (v : Nat),
       OD_getSub (some entry) sub = .ok (se, st) →
       se.read = .odOriginal → se.write = .odOriginal →
       se.attrib &&& 1 ≠ 0 → se.attrib &&& 2 ≠ 0 →
       st.dataObject = some (p, off) → st.dataLength = 8 →
       p < mem.length → off + 8 ≤ (mem.getD p []).length →
       v < 2 ^ 64 →
       (OD_set_r64 env mem (some entry) sub v).1 = ODR_OK ∧
       OD_get_r64 env (OD_set_r64 env mem (some entry) sub v).2
         (some entry) sub = (ODR_OK, v)) := by
  refine ⟨?_, ?_, ?_, ?_, ?_, ?_, ?_, ?_, ?_, ?_⟩
  · intro env mem entry sub se st p off v hget hr hw ha1 ha2 hobj hlen hp
      hfit hlo hhi
    exact OD_roundtrip_signed 1 (by norm_num) env mem entry sub se st p off v
      hget hr hw hobj hlen hp hfit (by norm_num at hlo ⊢; omega)
      (by norm_num at hhi ⊢; omega)
  · intro env mem entry sub se st p off v hget hr hw ha1 ha2 hobj hlen hp
      hfit hlo hhi
    exact OD_roundtrip_signed 2 (by norm_num) env mem entry sub se st p off v
      hget hr hw hobj hlen hp hfit (by norm_num at hlo ⊢; omega)
      (by norm_num at hhi ⊢; omega)
  · intro env mem entry sub se st p off v hget hr hw ha1 ha2 hobj hlen hp
      hfit hlo hhi
    exact OD_roundtrip_signed 4 (by norm_num) env mem entry sub se st p off v
      hget hr hw hobj hlen hp hfit (by norm_num at hlo ⊢; omega)
      (by norm_num at hhi ⊢; omega)
  · intro env mem entry sub se st p off v hget hr hw ha1 ha2 hobj hlen hp
      hfit hlo hhi
    exact OD_roundtrip_signed 8 (by norm_num) env mem entry sub se st p off v
      hget hr hw hobj hlen hp hfit (by norm_num at hlo ⊢; omega)
      (by norm_num at hhi ⊢; omega)
  · intro env mem entry sub se st p off v hget hr hw ha1 ha2 hobj hlen hp
      hfit hv
    exact OD_roundtrip_unsigned 1 env mem entry sub se st p off v hget hr hw
      hobj hlen hp hfit (by norm_num at hv ⊢; omega)
  · intro env mem entry sub se st p off v hget hr hw ha1 ha2 hobj hlen hp
      hfit hv
    exact OD_roundtrip_unsigned 2 env mem entry sub se st p off v hget hr hw
      hobj hlen hp hfit (by norm_num at hv ⊢; omega)
  · intro env mem entry sub se st p off v hget hr hw ha1 ha2 hobj hlen hp
      hfit hv
    exact OD_roundtrip_unsigned 4 env mem entry sub se st p off v hget hr hw
      hobj hlen hp hfit (by norm_num at hv ⊢; omega)
  · intro env mem entry sub se st p off v hget hr hw ha1 ha2 hobj hlen hp
      hfit hv
    exact OD_roundtrip_unsigned 8 env mem entry sub se st p off v hget hr hw
      hobj hlen hp hfit (by norm_num at hv ⊢; omega)
  · intro env mem entry sub se st p off v hget hr hw ha1 ha2 hobj hlen hp
      hfit hv
    exact OD_roundtrip_unsigned 4 env mem entry sub se st p off v hget hr hw
      hobj hlen hp hfit (by norm_num at hv ⊢; omega)
  · intro env mem entry sub se st p off v hget hr hw ha1 ha2 hobj hlen hp
      hfit hv
    exact OD_roundtrip_unsigned 8 env mem entry sub se st p off v hget hr hw
      hobj hlen hp hfit (by norm_num at hv ⊢; omega)

/-- Witness for C8 on the concrete fixtures: one representative value per
supported width round-trips bit-for-bit through set and get. -/
theorem OD_getset_roundtrip_witness :
    ((OD_set_i8 ODwit_env ODwit_mem (some ODwit_w1Entry) 0 (-90 : Int)).1 = ODR_OK ∧
     OD_get_i8 ODwit_env
       (OD_set_i8 ODwit_env ODwit_mem (some ODwit_w1Entry) 0 (-90 : Int)).2
       (some ODwit_w1Entry) 0 = (ODR_OK, (-90 : Int))) ∧
    ((OD_set_i16 ODwit_env ODwit_mem (some ODwit_w2Entry) 0 (-30000 : Int)).1 = ODR_OK ∧
     OD_get_i16 ODwit_env
       (OD_set_i16 ODwit_env ODwit_mem (some ODwit_w2Entry) 0 (-30000 : Int)).2
       (some ODwit_w2Entry) 0 = (ODR_OK, (-30000 : Int))) ∧
    ((OD_set_i32 ODwit_env ODwit_mem (some ODwit_w4Entry) 0 (-2000000000 : Int)).1 = ODR_OK ∧
     OD_get_i32 ODwit_env
       (OD_set_i32 ODwit_env ODwit_mem (some ODwit_w4Entry) 0 (-2000000000 : Int)).2
       (some ODwit_w4Entry) 0 = (ODR_OK, (-2000000000 : Int))) ∧
    ((OD_set_i64 ODwit_env ODwit_mem (some ODwit_w8Entry) 0 (-4000000000000000000 : Int)).1 = ODR_OK ∧
     OD_get_i64 ODwit_env
       (OD_set_i64 ODwit_env ODwit_mem (some ODwit_w8Entry) 0 (-4000000000000000000 : Int)).2
       (some ODwit_w8Entry) 0 = (ODR_OK, (-4000000000000000000 : Int))) ∧
    ((OD_set_u8 ODwit_env ODwit_mem (some ODwit_w1Entry) 0 0xA5).1 = ODR_OK ∧
     OD_get_u8 ODwit_env
       (OD_set_u8 ODwit_env ODwit_mem (some ODwit_w1Entry) 0 0xA5).2
       (some ODwit_w1Entry) 0 = (ODR_OK, 0xA5)) ∧
    ((OD_set_u16 ODwit_env ODwit_mem (some ODwit_w2Entry) 0 0xBEEF).1 = ODR_OK ∧
     OD_get_u16 ODwit_env
       (OD_set_u16 ODwit_env ODwit_mem (some ODwit_w2Entry) 0 0xBEEF).2
       (some ODwit_w2Entry) 0 = (ODR_OK, 0xBEEF)) ∧
    ((OD_set_u32 ODwit_env ODwit_mem (some ODwit_w4Entry) 0 0xDEADBEEF).1 = ODR_OK ∧
     OD_get_u32 ODwit_env
       (OD_set_u32 ODwit_env ODwit_mem (some ODwit_w4Entry) 0 0xDEADBEEF).2
       (some ODwit_w4Entry) 0 = (ODR_OK, 0xDEADBEEF)) ∧
    ((OD_set_u64 ODwit_env ODwit_mem (some ODwit_w8Entry) 0 0x0123456789ABCDEF).1 = ODR_OK ∧
     OD_get_u64 ODwit_env
       (OD_set_u64 ODwit_env ODwit_mem (some ODwit_w8Entry) 0 0x0123456789ABCDEF).2
       (some ODwit_w8Entry) 0 = (ODR_OK, 0x0123456789ABCDEF)) ∧
    ((OD_set_r32 ODwit_env ODwit_mem (some ODwit_w4Entry) 0 0x3F800000).1 = ODR_OK ∧
     OD_get_r32 ODwit_env
       (OD_set_r32 ODwit_env ODwit_mem (some ODwit_w4Entry) 0 0x3F800000).2
       (some ODwit_w4Entry) 0 = (ODR_OK, 0x3F800000)) ∧
    ((OD_set_r64 ODwit_env ODwit_mem (some ODwit_w8Entry) 0 0x3FF0000000000000).1 = ODR_OK ∧
     OD_get_r64 ODwit_env
       (OD_set_r64 ODwit_env ODwit_mem (some ODwit_w8Entry) 0 0x3FF0000000000000).2
       (some ODwit_w8Entry) 0 = (ODR_OK, 0x3FF0000000000000)) := by
  refine ⟨?_, ?_, ?_, ?_, ?_, ?_, ?_, ?_, ?_, ?_⟩
  · exact OD_getset_roundtrip.1 ODwit_env ODwit_mem ODwit_w1Entry 0
      { index := 0x2001, subIndex := 0, maxSubIndex := 0, storageGroup := 0, attrib := 3, lowLimit := 1, highLimit := 0, flagsPDO := none, read := .odOriginal, write := .odOriginal }
      { dataObject := some (0, 0), dataLength := 1, dataOffset := 0 }
      0 0 (-90 : Int) rfl rfl rfl (by decide) (by decide) rfl rfl (by decide)
      (by decide) (by decide) (by decide)
  · exact OD_getset_roundtrip.2.1 ODwit_env ODwit_mem ODwit_w2Entry 0
      { index := 0x2002, subIndex := 0, maxSubIndex := 0, storageGroup := 0, attrib := 3, lowLimit := 1, highLimit := 0, flagsPDO := none, read := .odOriginal, write := .odOriginal }
      { dataObject := some (1, 0), dataLength := 2, dataOffset := 0 }
      1 0 (-30000 : Int) rfl rfl rfl (by decide) (by decide) rfl rfl (by decide)
      (by decide) (by decide) (by decide)
  · exact OD_getset_roundtrip.2.2.1 ODwit_env ODwit_mem ODwit_w4Entry 0
      { index := 0x2003, subIndex := 0, maxSubIndex := 0, storageGroup := 0, attrib := 3, lowLimit := 1, highLimit := 0, flagsPDO := none, read := .odOriginal, write := .odOriginal }
      { dataObject := some (2, 0), dataLength := 4, dataOffset := 0 }
      2 0 (-2000000000 : Int) rfl rfl rfl (by decide) (by decide) rfl rfl (by decide)
      (by decide) (by decide) (by decide)
  · exact OD_getset_roundtrip.2.2.2.1 ODwit_env ODwit_mem ODwit_w8Entry 0
      { index := 0x2004, subIndex := 0, maxSubIndex := 0, storageGroup := 0, attrib := 3, lowLimit := 1, highLimit := 0, flagsPDO := none, read := .odOriginal, write := .odOriginal }
      { dataObject := some (3, 0), dataLength := 8, dataOffset := 0 }
      3 0 (-4000000000000000000 : Int) rfl rfl rfl (by decide) (by decide) rfl rfl (by decide)
      (by decide) (by decide) (by decide)
  · exact OD_getset_roundtrip.2.2.2.2.1 ODwit_env ODwit_mem ODwit_w1Entry 0
      { index := 0x2001, subIndex := 0, maxSubIndex := 0, storageGroup := 0, attrib := 3, lowLimit := 1, highLimit := 0, flagsPDO := none, read := .odOriginal, write := .odOriginal }
      { dataObject := some (0, 0), dataLength := 1, dataOffset := 0 }
      0 0 0xA5 rfl rfl rfl (by decide) (by decide) rfl rfl (by decide)
      (by decide) (by decide)
  · exact OD_getset_roundtrip.2.2.2.2.2.1 ODwit_env ODwit_mem ODwit_w2Entry 0
      { index := 0x2002, subIndex := 0, maxSubIndex := 0, storageGroup := 0, attrib := 3, lowLimit := 1, highLimit := 0, flagsPDO := none, read := .odOriginal, write := .odOriginal }
      { dataObject := some (1, 0), dataLength := 2, dataOffset := 0 }
      1 0 0xBEEF rfl rfl rfl (by decide) (by decide) rfl rfl (by decide)
      (by decide) (by decide)
  · exact OD_getset_roundtrip.2.2.2.2.2.2.1 ODwit_env ODwit_mem ODwit_w4Entry 0
      { index := 0x2003, subIndex := 0, maxSubIndex := 0, storageGroup := 0, attrib := 3, lowLimit := 1, highLimit := 0, flagsPDO := none, read := .odOriginal, write := .odOriginal }
      { dataObject := some (2, 0), dataLength := 4, dataOffset := 0 }
      2 0 0xDEADBEEF rfl rfl rfl (by decide) (by decide) rfl rfl (by decide)
      (by decide) (by decide)
  · exact OD_getset_roundtrip.2.2.2.2.2.2.2.1 ODwit_env ODwit_mem ODwit_w8Entry 0
      { index := 0x2004, subIndex := 0, maxSubIndex := 0, storageGroup := 0, attrib := 3, lowLimit := 1, highLimit := 0, flagsPDO := none, read := .odOriginal, write := .odOriginal }
      { dataObject := some (3, 0), dataLength := 8, dataOffset := 0 }
      3 0 0x0123456789ABCDEF rfl rfl rfl (by decide) (by decide) rfl rfl (by decide)
      (by decide) (by decide)
  · exact OD_getset_roundtrip.2.2.2.2.2.2.2.2.1 ODwit_env ODwit_mem ODwit_w4Entry 0
      { index := 0x2003, subIndex := 0, maxSubIndex := 0, storageGroup := 0, attrib := 3, lowLimit := 1, highLimit := 0, flagsPDO := none, read := .odOriginal, write := .odOriginal }
      { dataObject := some (2, 0), dataLength := 4, dataOffset := 0 }
      2 0 0x3F800000 rfl rfl rfl (by decide) (by decide) rfl rfl (by decide)
      (by decide) (by decide)
  · exact OD_getset_roundtrip.2.2.2.2.2.2.2.2.2 ODwit_env ODwit_mem ODwit_w8Entry 0
      { index := 0x2004, subIndex := 0, maxSubIndex := 0, storageGroup := 0, attrib := 3, lowLimit := 1, highLimit := 0, flagsPDO := none, read := .odOriginal, write := .odOriginal }
      { dataObject := some (3, 0), dataLength := 8, dataOffset := 0 }
      3 0 0x3FF0000000000000 rfl rfl rfl (by decide) (by decide) rfl rfl (by decide)
      (by decide) (by decide)
